import Mathlib

/-!
Verification development for the docmcp backend (FastAPI + SQLAlchemy).

The Python source under `app/` is shallowly embedded: database rows become
Lean structures, JSON values become an inductive `Json` type, request
handlers become pure functions threading an explicit database value, and
Python exceptions become `Except` errors carrying the HTTP status or the
exception message.  UUIDs are modelled as `Nat`; `json.loads`/`json.dumps`
round-trips of well-formed stored content are modelled by storing the
parsed JSON value directly.
-/

namespace DocMcp

/-- JSON values as produced by Python's json module (numbers restricted to
integers, which is all the embedded code paths ever store). -/
inductive Json where
  | null : Json
  | bool (b : Bool) : Json
  | num (n : Int) : Json
  | str (s : String) : Json
  | arr (xs : List Json) : Json
  | obj (kvs : List (String × Json)) : Json

/-- Python `dict.get(key)`: first binding of the key in an object, else None.
On non-objects the embedded handlers are only ever called with objects, so we
return none. -/
def Json.get : Json → String → Option Json
  | .obj kvs, k => kvs.lookup k
  | _, _ => none

/-- Python `dict.get(key, default)`. -/
def Json.getD (j : Json) (k : String) (d : Json) : Json :=
  (j.get k).getD d

/-- Set a key in a JSON object (Python `content[key] = value`): replaces the
first binding if present, else appends. -/
def setKey : List (String × Json) → String → Json → List (String × Json)
  | [], k, v => [(k, v)]
  | (k', v') :: rest, k, v =>
    if k' = k then (k, v) :: rest else (k', v') :: setKey rest k v

/-- Python `content[key] = value` on a JSON object. -/
def Json.setIn : Json → String → Json → Json
  | .obj kvs, k, v => .obj (setKey kvs k v)
  | j, _, _ => j

/-- Decimal digit character for a value below 10 (used to print indices the
way Python's str() does). -/
def digitChar (n : Nat) : Char :=
  match n with
  | 0 => '0' | 1 => '1' | 2 => '2' | 3 => '3' | 4 => '4'
  | 5 => '5' | 6 => '6' | 7 => '7' | 8 => '8' | _ => '9'

/-- Fuelled digit-list builder (`natDigits` instantiates the fuel with the
number itself, which always suffices since each step divides by ten). -/
def natDigitsF : Nat → Nat → List Char
  | 0, n => [digitChar (n % 10)]
  | f + 1, n =>
    if n < 10 then [digitChar n]
    else natDigitsF f (n / 10) ++ [digitChar (n % 10)]

/-- Decimal digit list of a natural number, most significant first, the way
Python's str() prints a non-negative int. -/
def natDigits (n : Nat) : List Char := natDigitsF n n

/-- Numeric value of a decimal digit character. -/
def digitVal (c : Char) : Nat := c.toNat - 48

/-- Python `int(...)` on a non-empty string of decimal digits. -/
def digitsToNat (ds : List Char) : Nat :=
  ds.foldl (fun a c => a * 10 + digitVal c) 0

/-- Python `str.lower()` (ASCII range, which is all the embedded tests use). -/
def lowerStr (s : String) : String := ⟨s.data.map Char.toLower⟩

/-- SQL LIKE matching with `%` (any run) and `_` (any single char) wildcards,
other characters literal; this is the semantics `ilike` applies to the
unescaped `%word%` patterns built by `search_documents_tool`. -/
def likeMatch : List Char → List Char → Bool
  | [], ts => ts.isEmpty
  | p :: ps, ts =>
    if p == '%' then ts.tails.any fun suf => likeMatch ps suf
    else
      match ts with
      | [] => false
      | t :: ts' => (p == '_' || p == t) && likeMatch ps ts'

/-- `func.lower(col).ilike(func.lower(pattern))`: lower both sides, then LIKE. -/
def sqlIlike (pattern : String) (s : String) : Bool :=
  likeMatch (lowerStr pattern).data (lowerStr s).data

/-- Spec-side notion used by the search claims: `needle` occurs contiguously
inside `hay`. -/
def subOccurs (needle hay : List Char) : Bool :=
  hay.tails.any fun t => needle.isPrefixOf t

/-- Spec-side case-insensitive substring test. -/
def ciSubstring (needle hay : String) : Bool :=
  subOccurs (lowerStr needle).data (lowerStr hay).data

/-- Whitespace splitter loop: `acc` holds the current word reversed. -/
def splitWsGo : List Char → List Char → List String
  | [], acc => if acc.isEmpty then [] else [⟨acc.reverse⟩]
  | c :: cs, acc =>
    if c.isWhitespace then
      if acc.isEmpty then splitWsGo cs [] else ⟨acc.reverse⟩ :: splitWsGo cs []
    else splitWsGo cs (c :: acc)

/-- Python `str.split()` with no argument: split on whitespace runs, dropping
empty pieces. -/
def pySplit (s : String) : List String :=
  splitWsGo s.data []

/-!
Markdown image codec (`mcp_routes.py`, `IMAGE_PATTERN`,
`extract_images_from_markdown`, `restore_images_to_markdown`).

The regex `!\[([^\]]*)\]\(data:image/([^;]+);base64,([^"\s)]+)(?:\s+"([^"]*)")?\)`
is embedded as an explicit scanner.  Because each character class is
disjoint from the character that terminates it, the regex is deterministic
and backtracking never changes the outcome, so maximal-munch `takeWhile`
steps model it exactly.  `re.sub` semantics (leftmost, non-overlapping,
advance one char on failure) are modelled by the fuelled scan loops; fuel is
always instantiated with the string length, which each step strictly
consumes.
-/

/-- Characters matched by the regex class `\s` (ASCII range). -/
def isWsChar (c : Char) : Bool :=
  c == ' ' || c == '\t' || c == '\n' || c == '\r' || c == '\x0b' || c == '\x0c'

/-- Characters matched by the base64-data class `[^"\s)]`. -/
def isDataChar (c : Char) : Bool :=
  !(isWsChar c) && c != '"' && c != ')'

/-- One extracted image: the dict `{caption, mime_type, data, title?}` built
by `extract_images_from_markdown` (the `title` key is only present when the
matched title group is non-empty, mirroring `if title:`). -/
structure Img where
  caption : String
  mime : String
  data : String
  title : Option String
deriving DecidableEq

/-- The optional regex group `(?:\s+"([^"]*)")?` followed by the mandatory
`\)`: returns the title characters and the number of characters consumed
(including the closing parenthesis) when the group plus `)` matches. -/
def tryTitle (r : List Char) : Option (List Char × Nat) :=
  let ws := r.takeWhile isWsChar
  if ws.isEmpty then none
  else
    match r.drop ws.length with
    | '"' :: r5 =>
      let ttl := r5.takeWhile (fun c => c != '"')
      match r5.drop ttl.length with
      | '"' :: ')' :: _ => some (ttl, ws.length + 1 + ttl.length + 2)
      | _ => none
    | _ => none

/-- Strip an expected literal character sequence from the input, returning
the rest when it is present. -/
def stripLit : List Char → List Char → Option (List Char)
  | [], r => some r
  | _ :: _, [] => none
  | c :: cs, d :: r => if c == d then stripLit cs r else none

/-- The literal `](data:image/` between the caption and the mime subtype. -/
def litDataImage : List Char :=
  [']', '(', 'd', 'a', 't', 'a', ':', 'i', 'm', 'a', 'g', 'e', '/']

/-- The literal `;base64,` between the mime subtype and the data. -/
def litBase64 : List Char := [';', 'b', 'a', 's', 'e', '6', '4', ',']

/-- Attempt to match `IMAGE_PATTERN` at the head of the character list;
returns the image record and the total number of characters consumed. -/
def tryMatch : List Char → Option (Img × Nat)
  | '!' :: '[' :: rest =>
    let cap := rest.takeWhile (fun c => c != ']')
    match stripLit litDataImage (rest.drop cap.length) with
    | none => none
    | some r2 =>
      let mime := r2.takeWhile (fun c => c != ';')
      if mime.isEmpty then none
      else
        match stripLit litBase64 (r2.drop mime.length) with
        | none => none
        | some r3 =>
          let dat := r3.takeWhile isDataChar
          if dat.isEmpty then none
          else
            let r4 := r3.drop dat.length
            let base := 2 + cap.length + 13 + mime.length + 8 + dat.length
            match tryTitle r4 with
            | some (ttl, m) =>
              some ({ caption := ⟨cap⟩, mime := ⟨mime⟩, data := ⟨dat⟩,
                      title := if ttl.isEmpty then none else some ⟨ttl⟩ }, base + m)
            | none =>
              match r4 with
              | ')' :: _ =>
                some ({ caption := ⟨cap⟩, mime := ⟨mime⟩, data := ⟨dat⟩,
                        title := none }, base + 1)
              | _ => none
  | _ => none

/-- The replacement text `f"[image:{image_index}]"`. -/
def placeholder (k : Nat) : List Char :=
  '[' :: 'i' :: 'm' :: 'a' :: 'g' :: 'e' :: ':' :: (natDigits k ++ [']'])

/-- Fuelled scan loop of `IMAGE_PATTERN.sub(replace_image, markdown)`:
`k` is the number of images already collected (`len(images)`).  A match
consumes its `n ≥ 2` characters (written `cs.drop (n-1)` on the tail so the
recursion consumes at least the head, keeping the fuel bound obvious). -/
def extractGoF : Nat → List Char → Nat → List Char × List Img
  | _, [], _ => ([], [])
  | 0, _ :: _, _ => ([], [])
  | fuel + 1, c :: cs, k =>
    match tryMatch (c :: cs) with
    | some (img, n) =>
      let r := extractGoF fuel (cs.drop (n - 1)) (k + 1)
      (placeholder k ++ r.1, img :: r.2)
    | none =>
      let r := extractGoF fuel cs k
      (c :: r.1, r.2)

/-- `extract_images_from_markdown(markdown)`. -/
def extract_images_from_markdown (markdown : String) : String × List Img :=
  let r := extractGoF markdown.data.length markdown.data 0
  (⟨r.1⟩, r.2)

/-- Attempt to match the placeholder pattern `\[image:(\d+)\]` at the head;
returns the parsed index and the number of characters consumed. -/
def tryPlaceholder : List Char → Option (Nat × Nat)
  | '[' :: 'i' :: 'm' :: 'a' :: 'g' :: 'e' :: ':' :: r =>
    let ds := r.takeWhile Char.isDigit
    if ds.isEmpty then none
    else
      match r.drop ds.length with
      | ']' :: _ => some (digitsToNat ds, 7 + ds.length + 1)
      | _ => none
  | _ => none

/-- The image tag text rebuilt by `replace_placeholder`; the title clause is
omitted when absent (`if title:`). -/
def titleTail : Option String → List Char
  | some t => ' ' :: '"' :: (t.data ++ '"' :: ')' :: [])
  | none => [')']

/-- `f'![{caption}](data:image/{mime_type};base64,{data}...)'`. -/
def canonTag (img : Img) : List Char :=
  '!' :: '[' :: (img.caption.data ++
    ']' :: '(' :: 'd' :: 'a' :: 't' :: 'a' :: ':' :: 'i' :: 'm' :: 'a' :: 'g' :: 'e' :: '/' ::
      (img.mime.data ++ ';' :: 'b' :: 'a' :: 's' :: 'e' :: '6' :: '4' :: ',' ::
        (img.data.data ++ titleTail img.title)))

/-- Fuelled scan loop of `placeholder_pattern.sub(replace_placeholder, ...)`:
a placeholder whose index has a matching image is replaced by the rebuilt
tag, otherwise it is left untouched and scanning continues after it. -/
def restoreGoF : Nat → List Char → List Img → List Char
  | _, [], _ => []
  | 0, _ :: _, _ => []
  | fuel + 1, c :: cs, imgs =>
    match tryPlaceholder (c :: cs) with
    | some (idx, n) =>
      if h : idx < imgs.length then
        canonTag (imgs.get ⟨idx, h⟩) ++ restoreGoF fuel (cs.drop (n - 1)) imgs
      else
        (c :: cs).take n ++ restoreGoF fuel (cs.drop (n - 1)) imgs
    | none => c :: restoreGoF fuel cs imgs

/-- `restore_images_to_markdown(markdown, images)`. -/
def restore_images_to_markdown (markdown : String) (images : List Img) : String :=
  ⟨restoreGoF markdown.data.length markdown.data images⟩

/-!
Serialization: Python `json.dumps` with default separators.  The fuel is
always instantiated with `sizeOf`, which strictly dominates nesting depth,
so the zero-fuel branch is unreachable.  `ensure_ascii` escaping of
non-ASCII characters and `indent=` pretty-printing are not modelled (no
claim depends on the exact serialized shape beyond substring content).
-/

/-- JSON string escaping for the characters the embedded contents use. -/
def escChar (c : Char) : List Char :=
  if c == '"' then ['\\', '"']
  else if c == '\\' then ['\\', '\\']
  else if c == '\n' then ['\\', 'n']
  else if c == '\t' then ['\\', 't']
  else if c == '\r' then ['\\', 'r']
  else [c]

/-- A JSON string literal. -/
def dumpStr (s : String) : String :=
  ⟨'"' :: (s.data.flatMap escChar ++ ['"'])⟩

def lbraceS : String := "\x7b"

def rbraceS : String := "\x7d"

/-- Fuelled body of `json.dumps`. -/
def dumpF : Nat → Json → String
  | 0, _ => ""
  | _ + 1, .null => r"null"
  | _ + 1, .bool true => r"true"
  | _ + 1, .bool false => r"false"
  | _ + 1, .num n => toString n
  | _ + 1, .str s => dumpStr s
  | f + 1, .arr xs =>
    r"[" ++ String.intercalate r", " (xs.map (fun x => dumpF f x)) ++ r"]"
  | f + 1, .obj kvs =>
    lbraceS ++
      String.intercalate r", " (kvs.map (fun kv => dumpStr kv.1 ++ r": " ++ dumpF f kv.2)) ++
      rbraceS

mutual

/-- Structural size of a JSON value, used as fuel for `dumpF`. -/
def jsonSize : Json → Nat
  | .arr xs => 1 + jsonListSize xs
  | .obj kvs => 1 + jsonObjSize kvs
  | _ => 1

def jsonListSize : List Json → Nat
  | [] => 0
  | x :: xs => jsonSize x + jsonListSize xs

def jsonObjSize : List (String × Json) → Nat
  | [] => 0
  | kv :: kvs => jsonSize kv.2 + jsonObjSize kvs

end

/-- Python `json.dumps` (default separators). -/
def Json.dumps (j : Json) : String := dumpF (jsonSize j) j

/-!
Parsing: a recursive-descent `json.loads` over the subset of JSON the
embedded code paths exchange (null, booleans, integers, strings without
escape sequences beyond the ones of `escChar`, arrays, objects).  Only the
whiteboard branches of `edit_document_tool` / `create_document_tool` consume
it, and no claim depends on its edge behavior.
-/

def lbraceC : Char := Char.ofNat 123

def rbraceC : Char := Char.ofNat 125

/-- Unescape one JSON string character; returns the char and the rest. -/
def parseStrChars : Nat → List Char → Option (List Char × List Char)
  | 0, _ => none
  | _ + 1, '"' :: r => some ([], r)
  | f + 1, '\\' :: e :: r =>
    let c? : Option Char :=
      if e == '"' then some '"'
      else if e == '\\' then some '\\'
      else if e == 'n' then some '\n'
      else if e == 't' then some '\t'
      else if e == 'r' then some '\r'
      else if e == '/' then some '/'
      else none
    match c?, parseStrChars f r with
    | some c, some (cs, rest) => some (c :: cs, rest)
    | _, _ => none
  | f + 1, c :: r =>
    match parseStrChars f r with
    | some (cs, rest) => some (c :: cs, rest)
    | none => none
  | _ + 1, [] => none

mutual

/-- Fuelled JSON value parser; input must start at a value (whitespace
already skipped by the caller). -/
def parseVal : Nat → List Char → Option (Json × List Char)
  | 0, _ => none
  | f + 1, cs =>
    match cs.dropWhile isWsChar with
    | 'n' :: 'u' :: 'l' :: 'l' :: r => some (.null, r)
    | 't' :: 'r' :: 'u' :: 'e' :: r => some (.bool true, r)
    | 'f' :: 'a' :: 'l' :: 's' :: 'e' :: r => some (.bool false, r)
    | '"' :: r =>
      match parseStrChars r.length r with
      | some (cs', rest) => some (.str ⟨cs'⟩, rest)
      | none => none
    | '[' :: r =>
      match (r.dropWhile isWsChar) with
      | ']' :: rest => some (.arr [], rest)
      | _ => match parseElems f r with
        | some (xs, rest) => some (.arr xs, rest)
        | none => none
    | '-' :: r =>
      let ds := r.takeWhile Char.isDigit
      if ds.isEmpty then none
      else some (.num (-(Int.ofNat (digitsToNat ds))), r.drop ds.length)
    | c :: r =>
      if c == lbraceC then
        match ((c :: r).tail.dropWhile isWsChar) with
        | d :: rest =>
          if d == rbraceC then some (.obj [], rest)
          else match parseMembers f (d :: rest) with
            | some (kvs, rest') => some (.obj kvs, rest')
            | none => none
        | [] => none
      else
        let ds := (c :: r).takeWhile Char.isDigit
        if ds.isEmpty then none
        else some (.num (Int.ofNat (digitsToNat ds)), (c :: r).drop ds.length)
    | [] => none

/-- Comma-separated array elements up to `]`. -/
def parseElems : Nat → List Char → Option (List Json × List Char)
  | 0, _ => none
  | f + 1, cs =>
    match parseVal f cs with
    | none => none
    | some (v, rest) =>
      match rest.dropWhile isWsChar with
      | ',' :: r2 =>
        match parseElems f r2 with
        | some (xs, rest') => some (v :: xs, rest')
        | none => none
      | ']' :: r2 => some ([v], r2)
      | _ => none

/-- Comma-separated object members up to the closing brace. -/
def parseMembers : Nat → List Char → Option (List (String × Json) × List Char)
  | 0, _ => none
  | f + 1, cs =>
    match cs.dropWhile isWsChar with
    | '"' :: r =>
      match parseStrChars r.length r with
      | none => none
      | some (kcs, rest) =>
        match rest.dropWhile isWsChar with
        | ':' :: r2 =>
          match parseVal f r2 with
          | none => none
          | some (v, rest2) =>
            match rest2.dropWhile isWsChar with
            | ',' :: r3 =>
              match parseMembers f r3 with
              | some (kvs, rest3) => some ((⟨kcs⟩, v) :: kvs, rest3)
              | none => none
            | d :: r3 =>
              if d == rbraceC then some ([(⟨kcs⟩, v)], r3) else none
            | [] => none
        | _ => none
    | _ => none

end

/-- Python `json.loads`: parse, requiring only whitespace to remain. -/
def pyJsonLoads (s : String) : Option Json :=
  match parseVal (s.data.length + 1) s.data with
  | some (v, rest) => if (rest.dropWhile isWsChar).isEmpty then some v else none
  | none => none

/-!
Data model (`projects/models.py`, `users/models.py`).  UUIDs are `Nat`;
`created_at` timestamps are `Nat` counters.  Stored document content is the
parsed JSON value (the code always writes `json.dumps(...)` and reads it
back with `json.loads`); its serialized form, as the SQL layer sees it, is
`Json.dumps`.  The `archived` column is not modelled (no claim touches it).
-/

inductive DocType where
  | markdown
  | whiteboard
deriving DecidableEq

/-- `DocumentType(value).value`. -/
def DocType.value : DocType → String
  | .markdown => r"markdown"
  | .whiteboard => r"whiteboard"

/-- `DocumentType(doc_type)` — raises ValueError on anything else. -/
def docTypeOfValue (s : String) : Option DocType :=
  if s = r"markdown" then some .markdown
  else if s = r"whiteboard" then some .whiteboard
  else none

structure Doc where
  id : Nat
  name : String
  project_id : Nat
  type : DocType
  content : Json
  parent_id : Option Nat
  order : Int
  editable_by_agent : Bool
  created_at : Nat

structure ProjectRec where
  id : Nat
  team_id : Nat
deriving DecidableEq

/-- The project/document store reachable from the MCP endpoint, plus the
fresh-id counter used when creating rows (a new row's `created_at` is its
id, preserving creation order). -/
structure Db where
  projects : List ProjectRec
  docs : List Doc
  nextId : Nat

/-- `ProjectRepository.get`. -/
def findProject (db : Db) (pid : Nat) : Option ProjectRec :=
  db.projects.find? (fun p => p.id == pid)

/-- `DocumentRepository.get`. -/
def findDoc (db : Db) (did : Nat) : Option Doc :=
  db.docs.find? (fun d => d.id == did)

/-- Replace a document by id (`db.commit()` after mutating the ORM row). -/
def updateDoc (db : Db) (d : Doc) : Db :=
  { db with docs := db.docs.map (fun e => if e.id == d.id then d else e) }

/-- Stable insertion before the first element not strictly below `d` —
shared shape of the embedded `ORDER BY` clauses and of Python's stable
`sorted`. -/
def insertIf {α : Type} (lt : α → α → Bool) (d : α) : List α → List α
  | [] => [d]
  | e :: es => if lt e d then e :: insertIf lt d es else d :: e :: es

/-- Stable ascending sort by the strict comparison `lt`. -/
def sortIf {α : Type} (lt : α → α → Bool) (l : List α) : List α :=
  l.foldr (insertIf lt) []

/-- The `ORDER BY "order", created_at` of `DocumentRepository.find_by_filter`. -/
def sortByOrderCreated (l : List Doc) : List Doc :=
  sortIf (fun a b => a.order < b.order || (a.order == b.order && a.created_at < b.created_at)) l

/-- `DocumentRepository.list_for_project`. -/
def list_for_project (db : Db) (pid : Nat) : List Doc :=
  sortByOrderCreated (db.docs.filter (fun d => d.project_id == pid))

/-- The `ORDER BY created_at ASC` of `search_documents_tool`. -/
def sortByCreated (l : List Doc) : List Doc :=
  sortIf (fun a b => a.created_at < b.created_at) l

/-!
MCP tool layer (`mcp_routes.py`).  Handler-level Python exceptions
(`ValueError`, `HTTPException`) become `Except` errors; each tool returns
its MCP result JSON together with the (possibly updated) store.
-/

/-- A `{"content": [{"type": "text", "text": s}]}` tool result. -/
def toolTextResult (s : String) : Json :=
  .obj [(r"content", .arr [.obj [(r"type", .str r"text"), (r"text", .str s)]])]

/-- The word-level search condition: `lower(name) ILIKE lower('%w%') OR
lower(content) ILIKE lower('%w%')`. -/
def wordCondition (w : String) (d : Doc) : Bool :=
  sqlIlike (r"%" ++ w ++ r"%") d.name || sqlIlike (r"%" ++ w ++ r"%") d.content.dumps

/-- The combined WHERE condition built by `search_documents_tool`: the OR of
the per-word conditions, falling back to a single `%query%` pattern when the
query has no words. -/
def searchCondition (query : String) (d : Doc) : Bool :=
  match pySplit query with
  | [] =>
    sqlIlike (r"%" ++ query ++ r"%") d.name || sqlIlike (r"%" ++ query ++ r"%") d.content.dumps
  | words => words.any (fun w => wordCondition w d)

/-- The row set returned by the search query: project documents satisfying
the condition, ordered by `created_at` ascending. -/
def search_documents_matches (db : Db) (pid : Nat) (query : String) : List Doc :=
  sortByCreated (db.docs.filter (fun d => d.project_id == pid && searchCondition query d))

/-- `search_documents_tool`. -/
def search_documents_tool (db : Db) (pid : Nat) (query : String) :
    Except String (Json × Db) :=
  match findProject db pid with
  | none => .error r"Project not found"
  | some _ =>
    let results := (search_documents_matches db pid query).map (fun d =>
      Json.obj [(r"id", .str (toString d.id)), (r"name", .str d.name),
                (r"type", .str d.type.value)])
    .ok (toolTextResult (Json.dumps (.obj [(r"query", .str query), (r"results", .arr results)])), db)

/-- `build_document_tree`; the fuel (instantiated with the document count)
bounds the recursion depth, which suffices on acyclic parent graphs. -/
def build_document_tree : Nat → Doc → List Doc → Json
  | fuel, document, allDocs =>
    let children := allDocs.filter (fun d => d.parent_id == some document.id)
    let base := [(r"id", Json.str (toString document.id)), (r"name", Json.str document.name),
                 (r"editable_by_agent", Json.bool document.editable_by_agent)]
    match fuel with
    | 0 => .obj base
    | f + 1 =>
      if children.isEmpty then .obj base
      else .obj (base ++ [(r"descendants", .arr (children.map (fun c => build_document_tree f c allDocs)))])

/-- `list_documents_tool`. -/
def list_documents_tool (db : Db) (pid : Nat) : Except String (Json × Db) :=
  match findProject db pid with
  | none => .error r"Project not found"
  | some _ =>
    let allDocs := list_for_project db pid
    let roots := allDocs.filter (fun d => d.parent_id.isNone)
    let trees := roots.map (fun d => build_document_tree allDocs.length d allDocs)
    .ok (toolTextResult (Json.dumps (.obj [(r"documents", .arr trees)])), db)

/-- One stored image dict, as `get_document_tool` persists it. -/
def imgToJson (i : Img) : Json :=
  .obj ([(r"caption", .str i.caption), (r"mime_type", .str i.mime), (r"data", .str i.data)] ++
    (match i.title with
     | some t => [(r"title", .str t)]
     | none => []))

/-- Read one stored image dict back (`img.get("caption", img.get("alt",
""))`, mandatory `mime_type`/`data`, truthy `title`).  Entries whose
mandatory keys are missing or non-string would raise in Python; the model
assumes well-formed stored image records and skips such entries. -/
def imageOfJson (j : Json) : Option Img :=
  match j.get (r"mime_type"), j.get (r"data") with
  | some (.str m), some (.str dt) =>
    let cap :=
      match j.get (r"caption") with
      | some (.str c) => c
      | _ =>
        match j.get (r"alt") with
        | some (.str a) => a
        | _ => ""
    let ttl :=
      match j.get (r"title") with
      | some (.str t) => if t = "" then none else some t
      | _ => none
    some ⟨cap, m, dt, ttl⟩
  | _, _ => none

/-- `current_content.get("images", [])` (with non-dict content giving `[]`). -/
def imagesOfContent (content : Json) : List Img :=
  match content.get (r"images") with
  | some (.arr xs) => xs.filterMap imageOfJson
  | _ => []

def editOkText (did : Nat) : String :=
  Json.dumps (.obj [(r"success", .bool true), (r"document_id", .str (toString did)),
                    (r"message", .str r"Document updated successfully")])

/-- `edit_document_tool`; `document_id` is the already-parsed UUID argument
(`none` models a string `UUID(...)` rejects). -/
def edit_document_tool (db : Db) (pid : Nat) (document_id : Option Nat) (content : String) :
    Except String (Json × Db) :=
  match findProject db pid with
  | none => .error r"Project not found"
  | some _ =>
  match document_id with
  | none => .error r"Invalid document ID format"
  | some did =>
  match findDoc db did with
  | none => .error r"Document not found"
  | some document =>
  if document.project_id ≠ pid then .error r"Document not found"
  else if !document.editable_by_agent then
    .error r"This document is not editable by agents. Set editable_by_agent=true first."
  else
    match document.type with
    | .markdown =>
      let images := imagesOfContent document.content
      let restored := restore_images_to_markdown content images
      let newContent := Json.obj [(r"markdown", .str restored)]
      .ok (toolTextResult (editOkText did), updateDoc db { document with content := newContent })
    | .whiteboard =>
      match pyJsonLoads content with
      | none => .error r"Whiteboard content must be valid JSON"
      | some raw =>
        let newContent := Json.obj [(r"raw", raw)]
        .ok (toolTextResult (editOkText did), updateDoc db { document with content := newContent })

/-- `create_document_tool`. -/
def create_document_tool (db : Db) (pid : Nat) (title : String) (doc_type : String)
    (content : String) : Except String (Json × Db) :=
  match findProject db pid with
  | none => .error r"Project not found"
  | some _ =>
  match docTypeOfValue doc_type with
  | none => .error r"Invalid document type. Must be 'markdown' or 'whiteboard'"
  | some ty =>
    let doc_content? : Except String Json :=
      match ty with
      | .markdown => .ok (.obj [(r"markdown", .str content)])
      | .whiteboard =>
        match pyJsonLoads content with
        | none => .error r"Whiteboard content must be valid JSON"
        | some raw => .ok (.obj [(r"raw", raw)])
    match doc_content? with
    | .error e => .error e
    | .ok doc_content =>
      let newDoc : Doc :=
        { id := db.nextId, name := title, project_id := pid, type := ty,
          content := doc_content, parent_id := none, order := 0,
          editable_by_agent := true, created_at := db.nextId }
      let okText := Json.dumps (.obj [(r"success", .bool true),
        (r"document_id", .str (toString db.nextId)),
        (r"message", .str r"Document created successfully")])
      .ok (toolTextResult okText, { db with docs := db.docs ++ [newDoc], nextId := db.nextId + 1 })

def nlStr : String := "\n"

def sepText : String := "\n---\n"

/-- `content["image"].split(",")[-1]`. -/
def lastCommaPiece (s : String) : String :=
  (s.split (fun c => c == ',')).getLastD ""

/-- Parent chain root→target of `get_document_tool`: follow `parent_id`
upward, prepending, stopping at a root or a dangling parent; fuel
(instantiated with the document count) bounds the walk. -/
def docChain (db : Db) : Nat → Doc → List Doc
  | 0, d => [d]
  | f + 1, d =>
    match d.parent_id with
    | none => [d]
    | some p =>
      match findDoc db p with
      | none => [d]
      | some parent => docChain db f parent ++ [d]

/-- The content blocks emitted for one chain document, together with the
store after the read-side image persistence.  Non-string `markdown` /
`text` / `image` values (which would crash the Python) are not modelled. -/
def gdBlocksOne (db : Db) (doc : Doc) : List Json × Db :=
  let content := doc.content
  let titleBlock := Json.obj [(r"type", .str r"text"), (r"text", .str (r"Title: " ++ doc.name))]
  match doc.type with
  | .markdown =>
    let markdownText :=
      match content.get (r"markdown") with
      | some (.str s) => s
      | _ =>
        match content.get (r"text") with
        | some (.str s) => s
        | _ => content.dumps
    let r := extract_images_from_markdown markdownText
    let db' :=
      if r.2.isEmpty then db
      else
        let newContent :=
          match content with
          | .obj _ => content.setIn (r"images") (.arr (r.2.map imgToJson))
          | _ => .obj [(r"markdown", .str markdownText), (r"images", .arr (r.2.map imgToJson))]
        updateDoc db { doc with content := newContent }
    ([titleBlock, .obj [(r"type", .str r"text"), (r"text", .str r.1)]] ++
       r.2.map (fun i => Json.obj [(r"type", .str r"image"), (r"data", .str i.data),
         (r"mimeType", .str (r"image/" ++ i.mime))]), db')
  | .whiteboard =>
    let imageBlocks :=
      match content.get (r"image") with
      | some (.str s) =>
        [Json.obj [(r"type", .str r"image"), (r"data", .str (lastCommaPiece s)),
                   (r"mimeType", .str r"image/png")]]
      | _ => []
    let rawBlock :=
      match content.get (r"raw") with
      | some rawv => Json.obj [(r"type", .str r"text"), (r"text", .str rawv.dumps)]
      | none =>
        Json.obj [(r"type", .str r"text"),
                  (r"text", .str (r"Excalidraw whiteboard content:" ++ nlStr ++ content.dumps))]
    ([titleBlock] ++ imageBlocks ++ [rawBlock], db)

/-- The block-building loop over the chain, inserting the `---` separator
between consecutive chain documents (not after the last). -/
def gdLoop (db : Db) : List Doc → List Json × Db
  | [] => ([], db)
  | [d] => gdBlocksOne db d
  | d :: rest =>
    let r1 := gdBlocksOne db d
    let r2 := gdLoop r1.2 rest
    (r1.1 ++ [Json.obj [(r"type", .str r"text"), (r"text", .str sepText)]] ++ r2.1, r2.2)

/-- `get_document_tool`. -/
def get_document_tool (db : Db) (pid : Nat) (document_id : Option Nat) :
    Except String (Json × Db) :=
  match findProject db pid with
  | none => .error r"Project not found"
  | some _ =>
  match document_id with
  | none => .error r"Invalid document ID format"
  | some did =>
  match findDoc db did with
  | none => .error r"Document not found"
  | some document =>
  if document.project_id ≠ pid then .error r"Document not found"
  else
    let chain := docChain db db.docs.length document
    let r := gdLoop db chain
    .ok (.obj [(r"content", .arr r.1)], r.2)

/-- Python `str(...)` of a decoded JSON value, as f-strings interpolate it
(container repr approximated by the JSON serialization; not claim-relevant). -/
def pyStr : Json → String
  | .str s => s
  | .num n => toString n
  | .bool true => r"True"
  | .bool false => r"False"
  | .null => r"None"
  | j => j.dumps

def pyStrOpt : Option Json → String
  | none => r"None"
  | some j => pyStr j

/-- The `UUID(document_id)` parse, abstracted to the Nat ids of the model:
a non-empty all-digit string parses, anything else raises ValueError. -/
def parseNatId (s : String) : Option Nat :=
  if s.data.isEmpty then none
  else if s.data.all Char.isDigit then some (digitsToNat s.data) else none

/-- `execute_tool`: dispatch by tool name; string arguments default to `""`
when absent (`arguments.get(k, "")`). -/
def execute_tool (db : Db) (pid : Nat) (tool_name : Option Json) (arguments : Json) :
    Except String (Json × Db) :=
  let argStr := fun (k : String) =>
    match arguments.get k with
    | some (.str s) => s
    | _ => ""
  match tool_name with
  | some (.str s) =>
    if s = r"list_documents" then list_documents_tool db pid
    else if s = r"search_documents" then search_documents_tool db pid (argStr (r"query"))
    else if s = r"get_document" then get_document_tool db pid (parseNatId (argStr (r"id")))
    else if s = r"edit_document" then
      edit_document_tool db pid (parseNatId (argStr (r"document_id"))) (argStr (r"content"))
    else if s = r"create_document" then
      create_document_tool db pid (argStr (r"title")) (argStr (r"type")) (argStr (r"content"))
    else .error (r"Unknown tool: " ++ s)
  | other => .error (r"Unknown tool: " ++ pyStrOpt other)

/-!
JSON-RPC dispatcher and endpoint (`handle_mcp_request`, `mcp_endpoint`).
The endpoint's `except Exception` catch-all turns every exception raised
below it — including the `HTTPException(400)` for unknown methods — into a
JSON-RPC error object `{code: -32603, message: str(e)}` delivered with
HTTP status 200; only an undecodable body reaches the `json.JSONDecodeError`
handler and produces HTTP 400.  The SSE framing (identical payload, one
`data:` frame) is not modelled separately.
-/

inductive HandlerExc where
  | httpExc (status : Nat) (detail : String)
  | pyError (message : String)

/-- Python `str(e)`: `HTTPException.__str__` is `f"{status_code}: {detail}"`. -/
def excMsg : HandlerExc → String
  | .httpExc st d => toString st ++ r": " ++ d
  | .pyError m => m

def PROTOCOL_VERSION : String := "2024-11-05"

def SERVER_INFO : Json :=
  .obj [(r"name", .str r"docs-mcp-server"), (r"version", .str r"1.0.0")]

/-- One entry of the static `TOOLS` catalog (the long human-readable
description strings are elided; no claim depends on them). -/
def toolDescriptor (name : String) (props : List (String × Json)) (req : List String) : Json :=
  .obj [(r"name", .str name), (r"description", .str ""),
        (r"inputSchema", .obj [(r"type", .str r"object"), (r"properties", .obj props),
                               (r"required", .arr (req.map Json.str))])]

def strProp : Json := .obj [(r"type", .str r"string"), (r"description", .str "")]

def TOOLS : Json :=
  .arr [
    toolDescriptor (r"list_documents") [] [],
    toolDescriptor (r"search_documents") [(r"query", strProp)] [r"query"],
    toolDescriptor (r"get_document") [(r"id", strProp)] [r"id"],
    toolDescriptor (r"edit_document") [(r"document_id", strProp), (r"content", strProp)]
      [r"document_id", r"content"],
    toolDescriptor (r"create_document")
      [(r"title", strProp), (r"type", strProp), (r"content", strProp)]
      [r"title", r"type", r"content"]]

/-- `handle_mcp_request`. -/
def handle_mcp_request (db : Db) (pid : Nat) (request_data : Json) :
    Except HandlerExc (Json × Db) :=
  let params := request_data.getD (r"params") (.obj [])
  match request_data.get (r"method") with
  | some (.str m) =>
    if m = r"initialize" then
      .ok (.obj [(r"protocolVersion", .str PROTOCOL_VERSION),
                 (r"capabilities", .obj [(r"tools", .obj [])]),
                 (r"serverInfo", SERVER_INFO)], db)
    else if m = r"tools/list" then .ok (.obj [(r"tools", TOOLS)], db)
    else if m = r"tools/call" then
      match execute_tool db pid (params.get (r"name")) (params.getD (r"arguments") (.obj [])) with
      | .ok r => .ok r
      | .error e => .error (.pyError e)
    else .error (.httpExc 400 (r"Unknown method: " ++ m))
  | other => .error (.httpExc 400 (r"Unknown method: " ++ pyStrOpt other))

/-- Outcome of one MCP POST as the HTTP client sees it. -/
inductive McpOutcome where
  | http (status : Nat) (detail : String)
  | ok (rid : Json) (result : Json)
  | rpcError (rid : Json) (code : Int) (message : String)

/-- `mcp_endpoint` (after its dependencies have succeeded): `body` is the
decoded request JSON, `none` when `json.loads` fails. -/
def mcp_endpoint (db : Db) (pid : Nat) (body : Option Json) : McpOutcome × Db :=
  match body with
  | none => (.http 400 (r"Invalid JSON"), db)
  | some request_data =>
    let rid := (request_data.get (r"id")).getD .null
    match handle_mcp_request db pid request_data with
    | .ok r => (.ok rid r.1, r.2)
    | .error e => (.rpcError rid (-32603) (excMsg e), db)

/-!
Bearer-token authentication and project authorization
(`users/api/dependencies.py`).  FastAPI resolves these dependencies before
the endpoint body runs, i.e. before the request body is read or parsed.
-/

structure UserRec where
  id : Nat
  teamIds : List Nat
deriving DecidableEq

structure ApiTokenRec where
  token : String
  deleted_at : Option Nat
  user : UserRec
deriving DecidableEq

/-- `get_current_user_from_bearer_token`. -/
def get_current_user_from_bearer_token (tokens : List ApiTokenRec)
    (authorization : Option String) : Except (Nat × String) UserRec :=
  match authorization with
  | none => .error (401, r"Authorization header required")
  | some auth =>
    match pySplit auth with
    | [scheme, tok] =>
      if lowerStr scheme ≠ r"bearer" then
        .error (401, r"Invalid authorization header format. Expected: Bearer <token>")
      else
        match tokens.find? (fun t => t.token == tok) with
        | none => .error (401, r"Invalid token")
        | some api_token =>
          match api_token.deleted_at with
          | some _ => .error (401, r"Token has been revoked")
          | none => .ok api_token.user
    | _ => .error (401, r"Invalid authorization header format. Expected: Bearer <token>")

/-- `verify_project_access`. -/
def verify_project_access (projects : List ProjectRec) (pid : Nat) (user : UserRec) :
    Except (Nat × String) UserRec :=
  match projects.find? (fun p => p.id == pid) with
  | none => .error (404, r"Project not found")
  | some project =>
    if project.team_id ∈ user.teamIds then .ok user
    else .error (403, r"You don't have access to this project")

/-- One full POST to `/api/mcp/{project_id}`: dependencies first (header →
token → user → project authorization), then the endpoint body parses the
request JSON and dispatches. -/
def mcp_request (db : Db) (tokens : List ApiTokenRec) (pid : Nat)
    (authorization : Option String) (body : Option Json) : McpOutcome × Db :=
  match get_current_user_from_bearer_token tokens authorization with
  | .error e => (.http e.1 e.2, db)
  | .ok user =>
    match verify_project_access db.projects pid user with
    | .error e => (.http e.1 e.2, db)
    | .ok _ => mcp_endpoint db pid body

/-!
REST document update (`document_routes.py::update_document`), embedded for
the reparent claims.  `payload.model_dump(exclude_unset=True)` is modelled
by an outer `Option` per field.
-/

structure DocumentUpdatePayload where
  name : Option String := none
  content : Option Json := none
  parent_id : Option (Option Nat) := none
  order : Option Int := none
  editable_by_agent : Option Bool := none

/-- `update_document` (PUT `/{project_id}/documents/{document_id}`). -/
def update_document (db : Db) (current_user : UserRec) (pid did : Nat)
    (payload : DocumentUpdatePayload) : Except (Nat × String) (Doc × Db) :=
  match findProject db pid with
  | none => .error (404, r"Project not found")
  | some project =>
  if project.team_id ∉ current_user.teamIds then
    .error (403, r"Not a member of this project's team")
  else
  match findDoc db did with
  | none => .error (404, r"Document not found")
  | some document =>
  if document.project_id ≠ pid then .error (404, r"Document not found")
  else
    let d1 := match payload.name with
      | some n => { document with name := n }
      | none => document
    let d2 := match payload.content with
      | some c => { d1 with content := c }
      | none => d1
    let finish := fun (d3 : Doc) =>
      let d4 := match payload.order with
        | some o => { d3 with order := o }
        | none => d3
      let d5 := match payload.editable_by_agent with
        | some b => { d4 with editable_by_agent := b }
        | none => d4
      Except.ok (d5, updateDoc db d5)
    match payload.parent_id with
    | none => finish d2
    | some none => finish { d2 with parent_id := none }
    | some (some newParent) =>
      match findDoc db newParent with
      | none => .error (400, r"Invalid parent document")
      | some parent =>
        if parent.project_id ≠ pid then .error (400, r"Invalid parent document")
        else if newParent = did then .error (400, r"Document cannot be its own parent")
        else finish { d2 with parent_id := some newParent }

/-!
Library templates (`library/models.py`, `library/repositories.py`,
`library/api/template_routes.py`).
-/

inductive TemplateVisibility where
  | priv
  | team
  | pub
deriving DecidableEq

structure TemplateRec where
  id : Nat
  name : String
  team_id : Nat
  user_id : Nat
  category_id : Option Nat
  type : DocType
  visibility : TemplateVisibility
  content : Json
  parent_id : Option Nat
  order : Int
  created_at : Nat

/-- The `ORDER BY created_at` of `find_visible_for_user`. -/
def sortByCreatedT (l : List TemplateRec) : List TemplateRec :=
  sortIf (fun a b => a.created_at < b.created_at) l

/-- The visibility disjunction of `find_visible_for_user`. -/
def templateVisibleTo (uid : Nat) (user_team_ids : List Nat) (t : TemplateRec) : Bool :=
  t.visibility == .pub ||
  (t.visibility == .team && user_team_ids.contains t.team_id) ||
  (t.visibility == .priv && t.user_id == uid)

/-- `TemplateRepository.find_visible_for_user` (the `include_content`
column deferral has no observable effect here). -/
def find_visible_for_user (uid : Nat) (user_team_ids : List Nat)
    (category_id : Option Nat) (only_root : Bool) (templates : List TemplateRec) :
    List TemplateRec :=
  sortByCreatedT (templates.filter (fun t =>
    templateVisibleTo uid user_team_ids t &&
    (!only_root || t.parent_id.isNone) &&
    (match category_id with
     | some cid => t.category_id == some cid
     | none => true)))

/-- `list_templates` (GET `/api/v1/library/templates/`) with no category
filter. -/
def list_templates (templates : List TemplateRec) (user : UserRec)
    (only_root : Bool) : List TemplateRec :=
  find_visible_for_user user.id user.teamIds none only_root templates

/-- `get_template` (GET `/api/v1/library/templates/{template_id}`). -/
def get_template (templates : List TemplateRec) (user : UserRec) (tid : Nat) :
    Except (Nat × String) TemplateRec :=
  match templates.find? (fun t => t.id == tid) with
  | none => .error (404, r"Template not found")
  | some template =>
    match template.visibility with
    | .pub => .ok template
    | .team =>
      if template.team_id ∈ user.teamIds then .ok template
      else .error (403, r"Cannot access this template")
    | .priv =>
      if template.user_id = user.id then .ok template
      else .error (403, r"Cannot access this template")

/-!
Template→document instantiation (`document_routes.py::
_create_document_from_template`).  A template with its recursively loaded
children (as produced by `get_with_hierarchy`) is a `TemplateNode` tree.
Fresh document ids come from a counter; a created row's `created_at` is its
id (creation order).  `Document()` leaves `editable_by_agent` at its column
default `false`.
-/

inductive TemplateNode where
  | node (name : String) (type : DocType) (content : Json) (order : Int)
      (children : List TemplateNode)

def TemplateNode.name : TemplateNode → String
  | .node n _ _ _ _ => n

def TemplateNode.type : TemplateNode → DocType
  | .node _ t _ _ _ => t

def TemplateNode.content : TemplateNode → Json
  | .node _ _ c _ _ => c

def TemplateNode.order : TemplateNode → Int
  | .node _ _ _ o _ => o

def TemplateNode.children : TemplateNode → List TemplateNode
  | .node _ _ _ _ cs => cs

/-- Python's stable `sorted(template.children, key=lambda t: t.order)`. -/
def sortTByOrder (l : List TemplateNode) : List TemplateNode :=
  sortIf (fun a b => a.order < b.order) l

mutual

/-- Number of nodes of a template tree. -/
def szT : TemplateNode → Nat
  | .node _ _ _ _ cs => 1 + szL cs

def szL : List TemplateNode → Nat
  | [] => 0
  | c :: cs => szT c + szL cs

end

mutual

/-- Fuelled body of `_create_document_from_template`: create the document
for this node, then recurse over the children in ascending stored order,
re-assigning sibling order as the enumeration index.  Returns the created
documents in creation order and the next fresh id.  Fuel `2 * szT` always
suffices (`createFromTemplateF_spec` is stated for any sufficient fuel). -/
def createFromTemplateF : Nat → TemplateNode → Nat → Option Nat → Int → Nat →
    List Doc × Nat
  | 0, _, _, _, _, nid => ([], nid)
  | f + 1, .node nm ty ct _ children, pid, parent_document_id, order, nid =>
    let document : Doc :=
      { id := nid, name := nm, project_id := pid, type := ty, content := ct,
        parent_id := parent_document_id, order := order,
        editable_by_agent := false, created_at := nid }
    let r := createChildDocsF f (sortTByOrder children) pid nid 0 (nid + 1)
    (document :: r.1, r.2)

/-- The `for idx, child_template in enumerate(sorted(...))` loop. -/
def createChildDocsF : Nat → List TemplateNode → Nat → Nat → Int → Nat →
    List Doc × Nat
  | 0, _, _, _, _, nid => ([], nid)
  | _ + 1, [], _, _, _, nid => ([], nid)
  | f + 1, c :: rest, pid, parent, idx, nid =>
    let r1 := createFromTemplateF f c pid (some parent) idx nid
    let r2 := createChildDocsF f rest pid parent (idx + 1) r1.2
    (r1.1 ++ r2.1, r2.2)

end

/-- `_create_document_from_template` as called from the route (`parent_id =
None`, default `order = 0`), with an adequate fuel. -/
def create_document_from_template (template : TemplateNode) (pid : Nat)
    (parent_document_id : Option Nat) (order : Int) (nid : Nat) : List Doc × Nat :=
  createFromTemplateF (2 * szT template) template pid parent_document_id order nid

mutual

/-- Specification-side relation, following the spec's wording of
`instantiateFromTemplate`: the created rows are one document per template
node with the same name, mapped type and carried-through content, the
node's document first, each child's subtree following its earlier siblings,
every child's `parent_id` pointing at the freshly created document of its
template parent, and sibling order re-assigned as the 0-based enumeration
index in ascending stored-order traversal. -/
inductive SpecInstantiation : List Doc → TemplateNode → Nat → Option Nat → Int → Prop where
  | node : ∀ (d : Doc) (rest : List Doc) (nm : String) (ty : DocType) (ct : Json)
      (o : Int) (cs : List TemplateNode) (pid : Nat) (parent : Option Nat) (ord : Int),
      d.name = nm → d.type = ty → d.content = ct → d.project_id = pid →
      d.parent_id = parent → d.order = ord →
      SpecChildren rest (sortTByOrder cs) pid d.id 0 →
      SpecInstantiation (d :: rest) (.node nm ty ct o cs) pid parent ord

/-- The children of a node, visited in ascending stored order, with order
re-assigned as the enumeration index starting at `idx`. -/
inductive SpecChildren : List Doc → List TemplateNode → Nat → Nat → Int → Prop where
  | nil : ∀ (pid parent : Nat) (idx : Int), SpecChildren [] [] pid parent idx
  | cons : ∀ (block rest : List Doc) (c : TemplateNode) (cs : List TemplateNode)
      (pid parent : Nat) (idx : Int),
      SpecInstantiation block c pid (some parent) idx →
      SpecChildren rest cs pid parent (idx + 1) →
      SpecChildren (block ++ rest) (c :: cs) pid parent idx

end

/-!
Segment decomposition used to state the image-codec round-trip claim: a
markdown string assembled from text pieces and canonically formatted image
tags.
-/

inductive MdPiece where
  | text (s : String)
  | image (i : Img)

/-- The markdown string assembled from the pieces (image pieces rendered as
canonical tags). -/
def piecesToMarkdown : List MdPiece → List Char
  | [] => []
  | .text s :: rest => s.data ++ piecesToMarkdown rest
  | .image i :: rest => canonTag i ++ piecesToMarkdown rest

/-- What extraction should produce for the pieces: text kept, the `k`-th
image (in encounter order) replaced by `[image:k]`. -/
def strippedOf : List MdPiece → Nat → List Char
  | [], _ => []
  | .text s :: rest, k => s.data ++ strippedOf rest k
  | .image _ :: rest, k => placeholder k ++ strippedOf rest (k + 1)

/-- The images of the pieces in encounter order. -/
def imgsOf : List MdPiece → List Img
  | [] => []
  | .text _ :: rest => imgsOf rest
  | .image i :: rest => i :: imgsOf rest

/-- Text pieces that interact with neither the image regex nor the
placeholder regex: free of `!` and `[`. -/
def goodTextB (t : List Char) : Bool :=
  t.all (fun c => c != '!' && c != '[')

/-- Image records whose canonical tag re-extracts to the same record:
caption free of `]`, non-empty `;`-free mime, non-empty data over the
regex's data class, and a title (when present) non-empty and quote-free. -/
def goodImgB (i : Img) : Bool :=
  i.caption.data.all (fun c => c != ']') &&
  !i.mime.data.isEmpty && i.mime.data.all (fun c => c != ';') &&
  !i.data.data.isEmpty && i.data.data.all isDataChar &&
  (match i.title with
   | none => true
   | some t => !t.data.isEmpty && t.data.all (fun c => c != '"'))

def goodPiecesB : List MdPiece → Bool
  | [] => true
  | .text s :: rest => goodTextB s.data && goodPiecesB rest
  | .image i :: rest => goodImgB i && goodPiecesB rest

def c8User1 : UserRec := ⟨100, [5]⟩

def c8User2 : UserRec := ⟨101, [7]⟩

def c8Tokens : List ApiTokenRec :=
  [⟨r"tok1", none, c8User1⟩, ⟨r"tokDel", some 3, c8User1⟩, ⟨r"tok2", none, c8User2⟩]

def c8Db : Db := ⟨[⟨10, 5⟩], [], 0⟩

def c3Req : Json :=
  .obj [(r"jsonrpc", .str r"2.0"), (r"id", .num 7), (r"method", .str r"foo"),
        (r"params", .obj [])]

/-! ## C1: reparent cycle check -/

def c1DocA : Doc := ⟨1, r"A", 10, .markdown, .obj [], none, 0, false, 1⟩

def c1DocB : Doc := ⟨2, r"B", 10, .markdown, .obj [], none, 0, false, 2⟩

def c1Db : Db := ⟨[⟨10, 5⟩], [c1DocA, c1DocB], 3⟩

def c1DocA2 : Doc := ⟨1, r"A", 10, .markdown, .obj [], some 2, 0, false, 1⟩

def c1DocB2 : Doc := ⟨2, r"B", 10, .markdown, .obj [], some 1, 0, false, 2⟩

def c1Db1 : Db := ⟨[⟨10, 5⟩], [c1DocA2, c1DocB], 3⟩

def c1Db2 : Db := ⟨[⟨10, 5⟩], [c1DocA2, c1DocB2], 3⟩

def c2Img : Json :=
  Json.obj [(r"caption", .str r"original"), (r"mime_type", .str r"png"), (r"data", .str r"AAA")]

def c2Doc : Doc :=
  ⟨1, r"ImgDoc", 10, .markdown,
    .obj [(r"markdown", .str r"# Orig ![original](data:image/png;base64,AAA)"),
          (r"images", .arr [c2Img])],
    none, 0, true, 1⟩

def c2Db : Db := ⟨[⟨10, 5⟩], [c2Doc], 2⟩

def c2DocAfter : Doc :=
  ⟨1, r"ImgDoc", 10, .markdown,
    .obj [(r"markdown", .str r"# Updated ![original](data:image/png;base64,AAA) tail")],
    none, 0, true, 1⟩

/-! ## C9: the agent edit gate -/

def editReq (s : String) (content : String) : Json :=
  .obj [(r"jsonrpc", .str r"2.0"), (r"id", .num 1), (r"method", .str r"tools/call"),
        (r"params", .obj [(r"name", .str r"edit_document"),
          (r"arguments", .obj [(r"document_id", .str s), (r"content", .str content)])])]

def c9DocOff : Doc := ⟨1, r"Doc", 10, .markdown, .obj [(r"markdown", .str r"old")], none, 0, false, 1⟩

def c9DocOn : Doc := ⟨1, r"Doc", 10, .markdown, .obj [(r"markdown", .str r"old")], none, 0, true, 1⟩

def c9DbOff : Db := ⟨[⟨10, 5⟩], [c9DocOff], 2⟩

def c9DbOn : Db := ⟨[⟨10, 5⟩], [c9DocOn], 2⟩

/-- Word free of the LIKE wildcards `%` and `_`. -/
def noMetaB (w : String) : Bool :=
  w.data.all (fun c => c != '%' && c != '_')

def searchDemoDoc : Doc := ⟨1, r"abc", 10, .markdown, .str r"xyz", none, 0, true, 1⟩

def searchDemoDb : Db := ⟨[⟨10, 5⟩], [searchDemoDoc], 2⟩

def instDoc : Doc :=
  ⟨1, r"Installation", 10, .markdown, .obj [(r"markdown", .str r"Install steps")],
    none, 0, true, 1⟩

def confDoc : Doc :=
  ⟨2, r"Configuration", 10, .markdown, .obj [(r"text", .str r"How to configure")],
    none, 0, true, 2⟩

def searchDb7 : Db := ⟨[⟨10, 5⟩], [instDoc, confDoc], 3⟩

def c6Leaf : TemplateNode := .node (r"Doc") .markdown (.obj []) 5 []

def c4M : String := r"[image:0]![a](data:image/p;base64,B)"

def c4Pieces : List MdPiece :=
  [.text (r"x "), .image ⟨r"a", r"png", r"AAA", none⟩, .text (r" y "),
   .image ⟨r"b", r"jpeg", r"BBB", some (r"t")⟩, .text (r" z")]

theorem szT_pos (t : TemplateNode) : 1 ≤ szT t := by
  cases t with
  | node nm ty ct o cs => simp [szT]

theorem szL_insertIf (lt : TemplateNode → TemplateNode → Bool) (t : TemplateNode)
    (l : List TemplateNode) : szL (insertIf lt t l) = szT t + szL l := by
  induction l with
  | nil => simp [insertIf, szL]
  | cons u us ih =>
    by_cases h : lt u t
    · simp [insertIf, h, szL, ih]; omega
    · simp [insertIf, h, szL]

theorem szL_sortT (l : List TemplateNode) : szL (sortTByOrder l) = szL l := by
  induction l with
  | nil => rfl
  | cons u us ih =>
    simp [sortTByOrder, sortIf, List.foldr] at ih ⊢
    rw [szL_insertIf, ih, szL]

/-! ## General lemmas about the shared machinery -/

theorem mem_insertIf {α : Type} (lt : α → α → Bool) (d a : α) (l : List α) :
    a ∈ insertIf lt d l ↔ a = d ∨ a ∈ l := by
  induction l with
  | nil => simp [insertIf]
  | cons e es ih =>
    by_cases h : lt e d
    · simp [insertIf, h, ih]
      tauto
    · simp [insertIf, h]

theorem mem_sortIf {α : Type} (lt : α → α → Bool) (a : α) (l : List α) :
    a ∈ sortIf lt l ↔ a ∈ l := by
  induction l with
  | nil => simp [sortIf]
  | cons e es ih =>
    simp only [sortIf, List.foldr] at ih ⊢
    rw [mem_insertIf]
    simp [ih]

/-! ## C8: authentication and authorization precede dispatch -/

/-- C8.  For every request to the agent protocol endpoint, authentication
and authorization are decided before dispatch, in this order: missing
Authorization header, malformed header, unknown token, or revoked
(soft-deleted) token each yield HTTP 401; a nonexistent target project
yields HTTP 404; a resolved user whose teams do not include the project's
owning team yields HTTP 403 — each outcome holding for every request body
(parsed or not), i.e. before the JSON-RPC body is parsed. -/
theorem c8_auth_before_dispatch
    (db : Db) (tokens : List ApiTokenRec) (pid : Nat) (body : Option Json) :
    (mcp_request db tokens pid none body =
      (.http 401 (r"Authorization header required"), db)) ∧
    (∀ auth, (pySplit auth).length ≠ 2 →
      mcp_request db tokens pid (some auth) body =
        (.http 401 (r"Invalid authorization header format. Expected: Bearer <token>"), db)) ∧
    (∀ auth s t, pySplit auth = [s, t] → lowerStr s ≠ r"bearer" →
      mcp_request db tokens pid (some auth) body =
        (.http 401 (r"Invalid authorization header format. Expected: Bearer <token>"), db)) ∧
    (∀ auth s t, pySplit auth = [s, t] → lowerStr s = r"bearer" →
      tokens.find? (fun tk => tk.token == t) = none →
      mcp_request db tokens pid (some auth) body = (.http 401 (r"Invalid token"), db)) ∧
    (∀ auth s t tk ts, pySplit auth = [s, t] → lowerStr s = r"bearer" →
      tokens.find? (fun tk => tk.token == t) = some tk → tk.deleted_at = some ts →
      mcp_request db tokens pid (some auth) body =
        (.http 401 (r"Token has been revoked"), db)) ∧
    (∀ auth s t tk, pySplit auth = [s, t] → lowerStr s = r"bearer" →
      tokens.find? (fun tk2 => tk2.token == t) = some tk → tk.deleted_at = none →
      findProject db pid = none →
      mcp_request db tokens pid (some auth) body = (.http 404 (r"Project not found"), db)) ∧
    (∀ auth s t tk project, pySplit auth = [s, t] → lowerStr s = r"bearer" →
      tokens.find? (fun tk2 => tk2.token == t) = some tk → tk.deleted_at = none →
      findProject db pid = some project → project.team_id ∉ tk.user.teamIds →
      mcp_request db tokens pid (some auth) body =
        (.http 403 (r"You don't have access to this project"), db)) := by
  refine ⟨rfl, ?_, ?_, ?_, ?_, ?_, ?_⟩
  · intro auth hlen
    rcases hsp : pySplit auth with _ | ⟨a, _ | ⟨b, _ | ⟨c, rest⟩⟩⟩
    · simp [mcp_request, get_current_user_from_bearer_token, hsp]
    · simp [mcp_request, get_current_user_from_bearer_token, hsp]
    · rw [hsp] at hlen; simp at hlen
    · simp [mcp_request, get_current_user_from_bearer_token, hsp]
  · intro auth s t hsp hs
    simp [mcp_request, get_current_user_from_bearer_token, hsp, hs]
  · intro auth s t hsp hs hfind
    simp [mcp_request, get_current_user_from_bearer_token, hsp, hs, hfind]
  · intro auth s t tk ts hsp hs hfind hdel
    simp [mcp_request, get_current_user_from_bearer_token, hsp, hs, hfind, hdel]
  · intro auth s t tk hsp hs hfind hdel hproj
    simp only [findProject] at hproj
    simp [mcp_request, get_current_user_from_bearer_token, verify_project_access,
      hsp, hs, hfind, hdel, hproj]
  · intro auth s t tk project hsp hs hfind hdel hproj hmem
    simp only [findProject] at hproj
    simp [mcp_request, get_current_user_from_bearer_token, verify_project_access,
      hsp, hs, hfind, hdel, hproj, hmem]

/-- Witness for C8 at a concrete store, token set and (malformed) body. -/
theorem c8_auth_before_dispatch_witness :
    (mcp_request c8Db c8Tokens 10 none none =
      (.http 401 (r"Authorization header required"), c8Db)) ∧
    (mcp_request c8Db c8Tokens 10 (some (r"Token abc extra")) none =
      (.http 401 (r"Invalid authorization header format. Expected: Bearer <token>"), c8Db)) ∧
    (mcp_request c8Db c8Tokens 10 (some (r"Basic tok1")) none =
      (.http 401 (r"Invalid authorization header format. Expected: Bearer <token>"), c8Db)) ∧
    (mcp_request c8Db c8Tokens 10 (some (r"Bearer nosuch")) none =
      (.http 401 (r"Invalid token"), c8Db)) ∧
    (mcp_request c8Db c8Tokens 10 (some (r"Bearer tokDel")) none =
      (.http 401 (r"Token has been revoked"), c8Db)) ∧
    (mcp_request c8Db c8Tokens 99 (some (r"Bearer tok1")) none =
      (.http 404 (r"Project not found"), c8Db)) ∧
    (mcp_request c8Db c8Tokens 10 (some (r"Bearer tok2")) none =
      (.http 403 (r"You don't have access to this project"), c8Db)) :=
  ⟨(c8_auth_before_dispatch c8Db c8Tokens 10 none).1,
   (c8_auth_before_dispatch c8Db c8Tokens 10 none).2.1 _ (by decide),
   (c8_auth_before_dispatch c8Db c8Tokens 10 none).2.2.1 _ (r"Basic") (r"tok1")
     (by decide) (by decide),
   (c8_auth_before_dispatch c8Db c8Tokens 10 none).2.2.2.1 _ (r"Bearer") (r"nosuch")
     (by decide) (by decide) (by decide),
   (c8_auth_before_dispatch c8Db c8Tokens 10 none).2.2.2.2.1 _ (r"Bearer") (r"tokDel")
     ⟨r"tokDel", some 3, c8User1⟩ 3 (by decide) (by decide) (by decide) (by decide),
   (c8_auth_before_dispatch c8Db c8Tokens 99 none).2.2.2.2.2.1 _ (r"Bearer") (r"tok1")
     ⟨r"tok1", none, c8User1⟩ (by decide) (by decide) (by decide) (by decide) (by decide),
   (c8_auth_before_dispatch c8Db c8Tokens 10 none).2.2.2.2.2.2 _ (r"Bearer") (r"tok2")
     ⟨r"tok2", none, c8User2⟩ ⟨10, 5⟩ (by decide) (by decide) (by decide) (by decide)
     (by decide) (by decide)⟩

/-! ## C3: unknown JSON-RPC method -/

theorem strAppendAssoc (a b c : String) : (a ++ b) ++ c = a ++ (b ++ c) := by
  rcases a with ⟨da⟩
  rcases b with ⟨db⟩
  rcases c with ⟨dc⟩
  show String.mk ((da ++ db) ++ dc) = String.mk (da ++ (db ++ dc))
  rw [List.append_assoc]

/-- C3, amended.  An authenticated, project-authorized POST whose body is a
valid JSON object and whose method is none of `initialize`, `tools/list`,
`tools/call` does not get HTTP 400: the dispatcher's `HTTPException(400)` is
swallowed by the endpoint's `except Exception` handler and the client
receives an HTTP-200 JSON-RPC error object with code `-32603` and message
`"400: Unknown method: <m>"`; HTTP 400 is reserved for undecodable bodies. -/
theorem c3_unknown_method_rpc_error (db : Db) (pid : Nat) (req : Json) (m : String)
    (hm : req.get (r"method") = some (.str m))
    (h1 : m ≠ r"initialize") (h2 : m ≠ r"tools/list") (h3 : m ≠ r"tools/call") :
    mcp_endpoint db pid (some req) =
      (.rpcError ((req.get (r"id")).getD .null) (-32603) (r"400: Unknown method: " ++ m), db) := by
  simp only [mcp_endpoint, handle_mcp_request, hm, h1, h2, h3, if_false, excMsg]
  rfl

/-- Counterexample for C3 as stated: a fully authenticated and authorized
POST with valid JSON body and unknown method `foo` yields the HTTP-200
JSON-RPC error object (`rpcError`), not an HTTP 400 response. -/
theorem c3_unknown_method_cex :
    mcp_request c8Db c8Tokens 10 (some (r"Bearer tok1")) (some c3Req) =
      (.rpcError (.num 7) (-32603) (r"400: Unknown method: foo"), c8Db) := rfl

/-- Witness for the amended C3 at a concrete request. -/
theorem c3_unknown_method_rpc_error_witness :
    mcp_endpoint c8Db 10 (some c3Req) =
      (.rpcError ((c3Req.get (r"id")).getD .null) (-32603) (r"400: Unknown method: " ++ r"foo"), c8Db) :=
  c3_unknown_method_rpc_error c8Db 10 c3Req (r"foo") rfl (by decide) (by decide) (by decide)

/-- C1 (code bug).  `update_document` rejects making a document its own
parent, but performs no ancestor walk: after `A.parent = B` succeeds, the
reparent `B.parent = A` — which the claim, the spec and the repository's own
tests (`test_update_document_bidirectional_circular_dependency`,
`test_update_document_three_level_circular_dependency`) require to fail with
HTTP 400 — is accepted, persisting the cycle `A.parent = B ∧ B.parent = A`. -/
theorem c1_update_document_cycle_accepted :
    (update_document c1Db c8User1 10 1 { parent_id := some (some 1) } =
      .error (400, r"Document cannot be its own parent")) ∧
    (update_document c1Db c8User1 10 1 { parent_id := some (some 2) } =
      .ok (c1DocA2, c1Db1)) ∧
    (update_document c1Db1 c8User1 10 2 { parent_id := some (some 1) } =
      .ok (c1DocB2, c1Db2)) ∧
    (findDoc c1Db2 1 = some c1DocA2 ∧ c1DocA2.parent_id = some 2) ∧
    (findDoc c1Db2 2 = some c1DocB2 ∧ c1DocB2.parent_id = some 1) :=
  ⟨rfl, rfl, rfl, ⟨rfl, rfl⟩, ⟨rfl, rfl⟩⟩

/-! ## C2: image retention across agent edits -/

/-- C2, amended.  On a markdown document, `edit_document` restores
`[image:N]` placeholders in the new content against the recorded images
list before saving, but the recorded list is NOT retained in the stored
content: the saved content is exactly `{"markdown": <restored>}` (the
retention assignment is commented out in the source), so previously
recorded images survive only where the new content references them. -/
theorem c2_edit_restores_but_drops_image_list (db : Db) (pid did : Nat)
    (document : Doc) (content : String) (p : ProjectRec)
    (hp : findProject db pid = some p)
    (hd : findDoc db did = some document)
    (hproj : document.project_id = pid)
    (hed : document.editable_by_agent = true)
    (hty : document.type = .markdown) :
    edit_document_tool db pid (some did) content =
      .ok (toolTextResult (editOkText did),
        updateDoc db { document with content :=
          (Json.obj [(r"markdown",
            Json.str (restore_images_to_markdown content (imagesOfContent document.content)))]) }) := by
  simp [edit_document_tool, hp, hd, hproj, hed, hty]

/-- Counterexample for C2 as stated: after an edit whose new content still
references the recorded image, the stored content of the document is
`{"markdown": ...}` alone — the previously recorded `images` list is gone. -/
theorem c2_image_list_dropped_cex :
    (edit_document_tool c2Db 10 (some 1) (r"# Updated [image:0] tail") =
      .ok (toolTextResult (editOkText 1), ⟨[⟨10, 5⟩], [c2DocAfter], 2⟩)) ∧
    c2Doc.content.get (r"images") = some (.arr [c2Img]) ∧
    c2DocAfter.content.get (r"images") = none :=
  ⟨rfl, rfl, rfl⟩

/-- Witness for the amended C2 at a concrete store. -/
theorem c2_edit_restores_but_drops_image_list_witness :
    edit_document_tool c2Db 10 (some 1) (r"# Updated [image:0] tail") =
      .ok (toolTextResult (editOkText 1),
        updateDoc c2Db { c2Doc with content :=
          (Json.obj [(r"markdown",
            Json.str (restore_images_to_markdown (r"# Updated [image:0] tail")
              (imagesOfContent c2Doc.content)))]) }) :=
  c2_edit_restores_but_drops_image_list c2Db 10 1 c2Doc _ ⟨10, 5⟩ rfl rfl rfl rfl rfl

/-- C9.  A `tools/call edit_document` on a markdown document with
`editable_by_agent = false` fails with a JSON-RPC error (HTTP 200, not an
HTTP error) whose message mentions "not editable by agents", leaving the
store unchanged; the same call with `editable_by_agent = true` succeeds and
the stored content reflects the new markdown (with placeholders restored). -/
theorem c9_agent_edit_gate (db : Db) (pid did : Nat) (document : Doc)
    (s content : String) (p : ProjectRec)
    (hp : findProject db pid = some p)
    (hs : parseNatId s = some did)
    (hd : findDoc db did = some document)
    (hproj : document.project_id = pid)
    (hty : document.type = .markdown) :
    (document.editable_by_agent = false →
      mcp_endpoint db pid (some (editReq s content)) =
        (.rpcError (.num 1) (-32603)
          (r"This document is not editable by agents. Set editable_by_agent=true first."), db) ∧
      subOccurs (r"not editable by agents").data
        (r"This document is not editable by agents. Set editable_by_agent=true first.").data
        = true) ∧
    (document.editable_by_agent = true →
      mcp_endpoint db pid (some (editReq s content)) =
        (.ok (.num 1) (toolTextResult (editOkText did)),
          updateDoc db { document with content := (Json.obj [(r"markdown",
            Json.str (restore_images_to_markdown content (imagesOfContent document.content)))]) })) := by
  constructor
  · intro hed
    refine ⟨?_, by decide⟩
    simp [mcp_endpoint, handle_mcp_request, execute_tool, editReq, Json.get, Json.getD,
      List.lookup, edit_document_tool, hp, hs, hd, hproj, hed, hty, excMsg]
  · intro hed
    simp [mcp_endpoint, handle_mcp_request, execute_tool, editReq, Json.get, Json.getD,
      List.lookup, edit_document_tool, hp, hs, hd, hproj, hed, hty]

/-- Witness for C9: both gate outcomes at a concrete store. -/
theorem c9_agent_edit_gate_witness :
    (mcp_endpoint c9DbOff 10 (some (editReq (r"1") (r"new text"))) =
      (.rpcError (.num 1) (-32603)
        (r"This document is not editable by agents. Set editable_by_agent=true first."), c9DbOff)) ∧
    (mcp_endpoint c9DbOn 10 (some (editReq (r"1") (r"new text"))) =
      (.ok (.num 1) (toolTextResult (editOkText 1)),
        updateDoc c9DbOn { c9DocOn with content := (Json.obj [(r"markdown",
          Json.str (restore_images_to_markdown (r"new text") (imagesOfContent c9DocOn.content)))]) })) :=
  ⟨((c9_agent_edit_gate c9DbOff 10 1 c9DocOff (r"1") (r"new text") ⟨10, 5⟩
      rfl rfl rfl rfl rfl).1 rfl).1,
   (c9_agent_edit_gate c9DbOn 10 1 c9DocOn (r"1") (r"new text") ⟨10, 5⟩
      rfl rfl rfl rfl rfl).2 rfl⟩

/-! ## C5: template visibility partition -/

theorem mem_list_templates (ts : List TemplateRec) (user : UserRec) (t : TemplateRec) :
    t ∈ list_templates ts user true ↔
      t ∈ ts ∧ templateVisibleTo user.id user.teamIds t = true ∧ t.parent_id = none := by
  simp [list_templates, find_visible_for_user, sortByCreatedT, mem_sortIf,
    List.mem_filter, Option.isNone_iff_eq_none, and_assoc]

/-- C5.  For the template set {PUBLIC, TEAM(T1), TEAM(T2), PRIVATE(U1),
PRIVATE(U2)} (all roots), the listing returns exactly the accessible
subset: a user whose teams are exactly {T1} sees the PUBLIC one, the
TEAM(T1) one, not the TEAM(T2) one, and each PRIVATE one iff they are its
creator; a user in no team (and owner of neither) sees exactly the PUBLIC
one; and the detail endpoint answers 403 (not 404) for the existing but
inaccessible TEAM(T2) and PRIVATE(U2) templates. -/
theorem c5_visibility_partition
    (tP tT1 tT2 tU1 tU2 : TemplateRec) (t1 t2 u1 u2 : Nat) (actor actorN : UserRec)
    (hP : tP.visibility = .pub) (hPr : tP.parent_id = none)
    (h1 : tT1.visibility = .team) (h1t : tT1.team_id = t1) (h1r : tT1.parent_id = none)
    (h2 : tT2.visibility = .team) (h2t : tT2.team_id = t2) (h2r : tT2.parent_id = none)
    (h3 : tU1.visibility = .priv) (h3u : tU1.user_id = u1) (h3r : tU1.parent_id = none)
    (h4 : tU2.visibility = .priv) (h4u : tU2.user_id = u2) (h4r : tU2.parent_id = none)
    (hT : t1 ≠ t2)
    (hA : actor.teamIds = [t1]) (hAu2 : actor.id ≠ u2)
    (hB : actorN.teamIds = []) (hBu1 : actorN.id ≠ u1) (hBu2 : actorN.id ≠ u2)
    (hi1 : tP.id ≠ tT2.id) (hi2 : tT1.id ≠ tT2.id)
    (hi3 : tP.id ≠ tU2.id) (hi4 : tT1.id ≠ tU2.id) (hi5 : tT2.id ≠ tU2.id)
    (hi6 : tU1.id ≠ tU2.id) :
    (tP ∈ list_templates [tP, tT1, tT2, tU1, tU2] actor true) ∧
    (tT1 ∈ list_templates [tP, tT1, tT2, tU1, tU2] actor true) ∧
    (tT2 ∉ list_templates [tP, tT1, tT2, tU1, tU2] actor true) ∧
    ((tU1 ∈ list_templates [tP, tT1, tT2, tU1, tU2] actor true) ↔ actor.id = u1) ∧
    ((tU2 ∈ list_templates [tP, tT1, tT2, tU1, tU2] actor true) ↔ actor.id = u2) ∧
    (tP ∈ list_templates [tP, tT1, tT2, tU1, tU2] actorN true) ∧
    (∀ t ∈ list_templates [tP, tT1, tT2, tU1, tU2] actorN true, t = tP) ∧
    (get_template [tP, tT1, tT2, tU1, tU2] actor tT2.id =
      .error (403, r"Cannot access this template")) ∧
    (get_template [tP, tT1, tT2, tU1, tU2] actor tU2.id =
      .error (403, r"Cannot access this template")) := by
  have hvP : ∀ u : UserRec, templateVisibleTo u.id u.teamIds tP = true := by
    intro u; simp [templateVisibleTo, hP]
  refine ⟨?_, ?_, ?_, ?_, ?_, ?_, ?_, ?_, ?_⟩
  · rw [mem_list_templates]
    exact ⟨by simp, hvP actor, hPr⟩
  · rw [mem_list_templates]
    refine ⟨by simp, ?_, h1r⟩
    simp [templateVisibleTo, h1, h1t, hA]
  · rw [mem_list_templates]
    intro hmem
    have := hmem.2.1
    simp [templateVisibleTo, h2, h2t, hA] at this
    exact hT this.symm
  · rw [mem_list_templates]
    constructor
    · intro hmem
      have := hmem.2.1
      simp [templateVisibleTo, h3, h3u] at this
      exact this.symm
    · intro hid
      refine ⟨by simp, ?_, h3r⟩
      simp [templateVisibleTo, h3, h3u, hid]
  · rw [mem_list_templates]
    constructor
    · intro hmem
      have := hmem.2.1
      simp [templateVisibleTo, h4, h4u] at this
      exact this.symm
    · intro hid
      refine ⟨by simp, ?_, h4r⟩
      simp [templateVisibleTo, h4, h4u, hid]
  · rw [mem_list_templates]
    exact ⟨by simp, hvP actorN, hPr⟩
  · intro t ht
    rw [mem_list_templates] at ht
    rcases ht with ⟨hmem, hvis, _⟩
    simp only [List.mem_cons, List.mem_singleton] at hmem
    rcases hmem with rfl | rfl | rfl | rfl | rfl | hf
    · rfl
    · simp [templateVisibleTo, h1, hB] at hvis
    · simp [templateVisibleTo, h2, hB] at hvis
    · simp [templateVisibleTo, h3, h3u] at hvis
      exact absurd hvis.symm hBu1
    · simp [templateVisibleTo, h4, h4u] at hvis
      exact absurd hvis.symm hBu2
    · simp at hf
  · simp only [get_template, List.find?]
    rw [show (tP.id == tT2.id) = false by simp [hi1],
      show (tT1.id == tT2.id) = false by simp [hi2],
      show (tT2.id == tT2.id) = true by simp]
    simp [h2, h2t, hA, Ne.symm hT]
  · simp only [get_template, List.find?]
    rw [show (tP.id == tU2.id) = false by simp [hi3],
      show (tT1.id == tU2.id) = false by simp [hi4],
      show (tT2.id == tU2.id) = false by simp [hi5],
      show (tU1.id == tU2.id) = false by simp [hi6],
      show (tU2.id == tU2.id) = true by simp]
    simp [h4, h4u, Ne.symm hAu2]

/-- Witness for C5 at concrete templates, teams and users. -/
theorem c5_visibility_partition_witness :
    (let tP : TemplateRec := ⟨1, r"P", 1, 10, none, .markdown, .pub, .obj [], none, 0, 1⟩
     let tT1 : TemplateRec := ⟨2, r"T1", 1, 10, none, .markdown, .team, .obj [], none, 0, 2⟩
     let tT2 : TemplateRec := ⟨3, r"T2", 2, 20, none, .markdown, .team, .obj [], none, 0, 3⟩
     let tU1 : TemplateRec := ⟨4, r"U1", 1, 100, none, .markdown, .priv, .obj [], none, 0, 4⟩
     let tU2 : TemplateRec := ⟨5, r"U2", 1, 200, none, .markdown, .priv, .obj [], none, 0, 5⟩
     let actor : UserRec := ⟨100, [1]⟩
     let actorN : UserRec := ⟨300, []⟩
     (tP ∈ list_templates [tP, tT1, tT2, tU1, tU2] actor true) ∧
     (tT1 ∈ list_templates [tP, tT1, tT2, tU1, tU2] actor true) ∧
     (tT2 ∉ list_templates [tP, tT1, tT2, tU1, tU2] actor true) ∧
     ((tU1 ∈ list_templates [tP, tT1, tT2, tU1, tU2] actor true) ↔ actor.id = 100) ∧
     ((tU2 ∈ list_templates [tP, tT1, tT2, tU1, tU2] actor true) ↔ actor.id = 200) ∧
     (tP ∈ list_templates [tP, tT1, tT2, tU1, tU2] actorN true) ∧
     (∀ t ∈ list_templates [tP, tT1, tT2, tU1, tU2] actorN true, t = tP) ∧
     (get_template [tP, tT1, tT2, tU1, tU2] actor 3 =
       .error (403, r"Cannot access this template")) ∧
     (get_template [tP, tT1, tT2, tU1, tU2] actor 5 =
       .error (403, r"Cannot access this template"))) :=
  c5_visibility_partition _ _ _ _ _ 1 2 100 200 _ _
    rfl rfl rfl rfl rfl rfl rfl rfl rfl rfl rfl rfl rfl rfl
    (by decide) rfl (by decide) rfl (by decide) (by decide)
    (by decide) (by decide) (by decide) (by decide) (by decide) (by decide)

/-! ## Search: LIKE-pattern lemmas shared by C7 and C10 -/

theorem tails_any_empty {α : Type} (l : List α) :
    (l.tails.any fun s => s.isEmpty) = true := by
  induction l with
  | nil => simp
  | cons a l ih => simp [List.tails, ih]

theorem likeMatch_pc_any (ps ts : List Char) :
    likeMatch ('%' :: ps) ts = ts.tails.any fun suf => likeMatch ps suf := rfl

theorem likeMatch_one_pc (ts : List Char) : likeMatch ['%'] ts = true := by
  rw [likeMatch_pc_any]
  exact tails_any_empty ts

theorem likeMatch_pp (ts : List Char) : likeMatch ['%', '%'] ts = true := by
  rw [likeMatch_pc_any, List.any_eq_true]
  exact ⟨ts, by simp [List.mem_tails], likeMatch_one_pc ts⟩

theorem sqlIlike_pp (s : String) : sqlIlike (r"%%") s = true := likeMatch_pp _

theorem likeMatch_lit_pc (w : List Char)
    (hw : ∀ c ∈ w, (c != '%' && c != '_') = true) (t : List Char) :
    likeMatch (w ++ ['%']) t = w.isPrefixOf t := by
  induction w generalizing t with
  | nil => simp [likeMatch_one_pc, List.isPrefixOf]
  | cons c w' ih =>
    have hc := hw c (by simp)
    simp only [Bool.and_eq_true, bne_iff_ne] at hc
    simp only [List.cons_append, likeMatch]
    rw [if_neg (by simp [hc.1])]
    cases t with
    | nil => simp [List.isPrefixOf]
    | cons x ts =>
      have ih' := ih (fun c hcmem => hw c (by simp [hcmem])) ts
      simp [List.isPrefixOf, ih', show (c == '_') = false by simp [hc.2]]

theorem sqlIlike_substring (w hay : String) (hw : noMetaB (lowerStr w) = true) :
    sqlIlike (r"%" ++ w ++ r"%") hay = ciSubstring w hay := by
  have hdata : (lowerStr (r"%" ++ w ++ r"%")).data =
      '%' :: ((lowerStr w).data ++ ['%']) := by
    simp only [lowerStr, String.data_append, List.map_append]
    rfl
  unfold sqlIlike
  rw [hdata, likeMatch_pc_any]
  simp only [noMetaB, List.all_eq_true] at hw
  have h : (fun suf => likeMatch ((lowerStr w).data ++ ['%']) suf) =
      (fun suf => (lowerStr w).data.isPrefixOf suf) := by
    funext suf
    exact likeMatch_lit_pc _ hw suf
  rw [h]
  rfl

theorem pairwise_insertIf_created (d : Doc) (l : List Doc)
    (h : List.Pairwise (fun a b : Doc => a.created_at ≤ b.created_at) l) :
    List.Pairwise (fun a b : Doc => a.created_at ≤ b.created_at)
      (insertIf (fun a b => a.created_at < b.created_at) d l) := by
  induction l with
  | nil => simp [insertIf]
  | cons e es ih =>
    rcases List.pairwise_cons.mp h with ⟨he, hes⟩
    by_cases hlt : (e.created_at < d.created_at : Bool)
    · simp only [insertIf, hlt, if_true]
      refine List.pairwise_cons.mpr ⟨?_, ih hes⟩
      intro x hx
      rcases (mem_insertIf _ _ _ _).mp hx with rfl | hx'
      · simp only [decide_eq_true_eq] at hlt
        omega
      · exact he x hx'
    · simp only [insertIf, hlt, if_false]
      refine List.pairwise_cons.mpr ⟨?_, h⟩
      intro x hx
      simp only [decide_eq_true_eq] at hlt
      rcases List.mem_cons.mp hx with rfl | hx'
      · omega
      · have := he x hx'
        omega

theorem sortByCreated_pairwise (l : List Doc) :
    List.Pairwise (fun a b : Doc => a.created_at ≤ b.created_at) (sortByCreated l) := by
  induction l with
  | nil => simp [sortByCreated, sortIf]
  | cons d l ih => exact pairwise_insertIf_created d _ ih

/-! ## C10: empty and whitespace-only search queries -/

/-- C10, amended.  A search with the empty-string query falls back to the
`%<query>%` pattern, which is `%%` and matches every row, so every project
document is returned; but a whitespace-only query builds the pattern
`%<whitespace>%`, which matches only documents whose lowered name or
serialized content contains that whitespace — not all documents. -/
theorem c10_empty_and_whitespace_query (db : Db) (pid : Nat) :
    (search_documents_matches db pid "" =
      sortByCreated (db.docs.filter (fun d => d.project_id == pid))) ∧
    (∀ q, pySplit q = [] →
      search_documents_matches db pid q =
        sortByCreated (db.docs.filter (fun d => d.project_id == pid &&
          (sqlIlike (r"%" ++ q ++ r"%") d.name ||
           sqlIlike (r"%" ++ q ++ r"%") d.content.dumps)))) := by
  constructor
  · unfold search_documents_matches
    congr 1
    apply List.filter_congr
    intro d _
    simp only [searchCondition]
    rw [show pySplit "" = ([] : List String) from rfl,
      show sqlIlike (r"%" ++ "" ++ r"%") d.name = true from sqlIlike_pp d.name]
    simp
  · intro q hq
    unfold search_documents_matches
    congr 1
    apply List.filter_congr
    intro d _
    simp [searchCondition, hq]

/-- Counterexample for C10 as stated: the project holds one document, the
project exists, and the whitespace-only query `" "` returns no documents
(its name and serialized content contain no space), while the empty query
does return everything. -/
theorem c10_whitespace_not_all_cex :
    search_documents_matches searchDemoDb 10 (r" ") = [] ∧
    searchDemoDb.docs.length = 1 ∧
    (findProject searchDemoDb 10).isSome = true ∧
    search_documents_matches searchDemoDb 10 "" = [searchDemoDoc] :=
  ⟨rfl, rfl, rfl, rfl⟩

/-- Witness for the amended C10 at a concrete store and query. -/
theorem c10_empty_and_whitespace_query_witness :
    (search_documents_matches searchDemoDb 10 "" =
      sortByCreated (searchDemoDb.docs.filter (fun d => d.project_id == 10))) ∧
    (search_documents_matches searchDemoDb 10 (r" ") =
      sortByCreated (searchDemoDb.docs.filter (fun d => d.project_id == 10 &&
        (sqlIlike (r"%" ++ r" " ++ r"%") d.name ||
         sqlIlike (r"%" ++ r" " ++ r"%") d.content.dumps)))) :=
  ⟨(c10_empty_and_whitespace_query searchDemoDb 10).1,
   (c10_empty_and_whitespace_query searchDemoDb 10).2 _ (by decide)⟩

/-! ## C7: search matches any word against name or serialized content -/

/-- C7, amended.  For a query with at least one word, each word free of the
SQL LIKE wildcards `%` and `_` (the code interpolates words unescaped into
`%word%` ILIKE patterns, so such characters act as wildcards rather than
literals — the counterexample shows the difference), a document of the
project is returned iff ANY word is a case-insensitive substring of its
name or of its serialized content, and the result is ordered by creation
time ascending. -/
theorem c7_search_any_word (db : Db) (pid : Nat) (query : String)
    (hne : pySplit query ≠ [])
    (hw : ∀ w ∈ pySplit query, noMetaB (lowerStr w) = true) :
    (∀ d, d ∈ search_documents_matches db pid query ↔
      d ∈ db.docs ∧ d.project_id = pid ∧
        ∃ w ∈ pySplit query,
          (ciSubstring w d.name = true ∨ ciSubstring w d.content.dumps = true)) ∧
    List.Pairwise (fun a b : Doc => a.created_at ≤ b.created_at)
      (search_documents_matches db pid query) := by
  constructor
  · intro d
    unfold search_documents_matches
    rw [show sortByCreated = sortIf (fun a b : Doc => a.created_at < b.created_at) from rfl,
      mem_sortIf, List.mem_filter]
    rcases hq : pySplit query with _ | ⟨w0, ws⟩
    · exact absurd hq hne
    · rw [hq] at hw
      simp only [searchCondition, hq, Bool.and_eq_true, beq_iff_eq, List.any_eq_true]
      constructor
      · rintro ⟨hmem, hpid, w, hwmem, hcond⟩
        refine ⟨hmem, hpid, w, hwmem, ?_⟩
        have hnm := hw w hwmem
        simp only [wordCondition, Bool.or_eq_true, sqlIlike_substring _ _ hnm] at hcond
        exact hcond
      · rintro ⟨hmem, hpid, w, hwmem, hcond⟩
        refine ⟨hmem, hpid, w, hwmem, ?_⟩
        have hnm := hw w hwmem
        simp only [wordCondition, Bool.or_eq_true, sqlIlike_substring _ _ hnm]
        exact hcond
  · exact sortByCreated_pairwise _

/-- Counterexample for C7 as stated: the single-word query `a_c` returns
the document named `abc` (the underscore is a LIKE wildcard), although
`a_c` is not a case-insensitive substring of the name or of the serialized
content. -/
theorem c7_like_wildcard_cex :
    search_documents_matches searchDemoDb 10 (r"a_c") = [searchDemoDoc] ∧
    searchDemoDoc.name = r"abc" ∧
    pySplit (r"a_c") = [r"a_c"] ∧
    ciSubstring (r"a_c") searchDemoDoc.name = false ∧
    ciSubstring (r"a_c") searchDemoDoc.content.dumps = false :=
  ⟨rfl, rfl, rfl, rfl, rfl⟩

/-- Witness for the amended C7: the spec's own example — documents named
`Installation` and `Configuration` both match the query
`installation configure` (the latter via its serialized content). -/
theorem c7_search_any_word_witness :
    instDoc ∈ search_documents_matches searchDb7 10 (r"installation configure") ∧
    confDoc ∈ search_documents_matches searchDb7 10 (r"installation configure") ∧
    List.Pairwise (fun a b : Doc => a.created_at ≤ b.created_at)
      (search_documents_matches searchDb7 10 (r"installation configure")) :=
  ⟨((c7_search_any_word searchDb7 10 (r"installation configure") (by decide)
      (by decide)).1 instDoc).mpr
    ⟨List.mem_cons_self _ _, rfl,
     ⟨r"installation", by decide, Or.inl (by decide)⟩⟩,
   ((c7_search_any_word searchDb7 10 (r"installation configure") (by decide)
      (by decide)).1 confDoc).mpr
    ⟨List.mem_cons_of_mem _ (List.mem_cons_self _ _), rfl,
     ⟨r"configure", by decide, Or.inr (by decide)⟩⟩,
   (c7_search_any_word searchDb7 10 (r"installation configure") (by decide)
      (by decide)).2⟩

/-! ## C6: template instantiation -/

theorem createF_spec : ∀ f : Nat,
    (∀ (t : TemplateNode) (pid : Nat) (parent : Option Nat) (ord : Int) (nid : Nat),
      2 * szT t ≤ f →
      SpecInstantiation (createFromTemplateF f t pid parent ord nid).1 t pid parent ord) ∧
    (∀ (cs : List TemplateNode) (pid parent : Nat) (idx : Int) (nid : Nat),
      2 * szL cs + 1 ≤ f →
      SpecChildren (createChildDocsF f cs pid parent idx nid).1 cs pid parent idx) := by
  intro f
  induction f with
  | zero =>
    constructor
    · intro t _ _ _ _ hf
      have := szT_pos t
      omega
    · intro cs _ _ _ _ hf
      omega
  | succ f ih =>
    constructor
    · intro t pid parent ord nid hf
      cases t with
      | node nm ty ct o cs =>
        simp only [createFromTemplateF]
        refine SpecInstantiation.node _ _ nm ty ct o cs pid parent ord
          rfl rfl rfl rfl rfl rfl ?_
        apply ih.2
        rw [szL_sortT]
        simp only [szT] at hf
        omega
    · intro cs pid parent idx nid hf
      cases cs with
      | nil =>
        simp only [createChildDocsF]
        exact SpecChildren.nil pid parent idx
      | cons c rest =>
        simp only [createChildDocsF]
        have hc := szT_pos c
        simp only [szL] at hf
        exact SpecChildren.cons _ _ c rest pid parent idx
          (ih.1 c pid (some parent) idx nid (by omega))
          (ih.2 rest pid parent (idx + 1) _ (by omega))

theorem createF_length : ∀ f : Nat,
    (∀ (t : TemplateNode) (pid : Nat) (parent : Option Nat) (ord : Int) (nid : Nat),
      2 * szT t ≤ f → (createFromTemplateF f t pid parent ord nid).1.length = szT t) ∧
    (∀ (cs : List TemplateNode) (pid parent : Nat) (idx : Int) (nid : Nat),
      2 * szL cs + 1 ≤ f → (createChildDocsF f cs pid parent idx nid).1.length = szL cs) := by
  intro f
  induction f with
  | zero =>
    constructor
    · intro t _ _ _ _ hf
      have := szT_pos t
      omega
    · intro cs _ _ _ _ hf
      omega
  | succ f ih =>
    constructor
    · intro t pid parent ord nid hf
      cases t with
      | node nm ty ct o cs =>
        simp only [createFromTemplateF, List.length_cons, szT]
        rw [ih.2 _ pid nid 0 (nid + 1) (by rw [szL_sortT]; simp only [szT] at hf; omega),
          szL_sortT]
        omega
    · intro cs pid parent idx nid hf
      cases cs with
      | nil => simp [createChildDocsF, szL]
      | cons c rest =>
        have hc := szT_pos c
        simp only [szL] at hf
        simp only [createChildDocsF, List.length_append, szL]
        rw [ih.1 c pid (some parent) idx nid (by omega),
          ih.2 rest pid parent (idx + 1) _ (by omega)]

/-- C6.  Instantiating a template subtree creates one document per template
node (`szT` counts nodes) with the same name, mapped type and
carried-through content, each child's `parent_id` pointing at the freshly
created document of its template parent and sibling order re-assigned as
the 0-based enumeration index in ascending stored-order traversal (the
`SpecInstantiation` relation); a template with zero children produces
exactly one document. -/
theorem c6_instantiate_from_template (t : TemplateNode) (pid nid : Nat) :
    SpecInstantiation (create_document_from_template t pid none 0 nid).1 t pid none 0 ∧
    (create_document_from_template t pid none 0 nid).1.length = szT t ∧
    (t.children = [] → (create_document_from_template t pid none 0 nid).1.length = 1) := by
  refine ⟨(createF_spec (2 * szT t)).1 t pid none 0 nid le_rfl,
    (createF_length (2 * szT t)).1 t pid none 0 nid le_rfl, ?_⟩
  intro hc
  rw [show create_document_from_template t pid none 0 nid =
      createFromTemplateF (2 * szT t) t pid none 0 nid from rfl,
    (createF_length (2 * szT t)).1 t pid none 0 nid le_rfl]
  cases t with
  | node nm ty ct o cs =>
    simp only [TemplateNode.children] at hc
    subst hc
    rfl

/-- Witness for C6 at a concrete childless template. -/
theorem c6_instantiate_from_template_witness :
    SpecInstantiation (create_document_from_template c6Leaf 10 none 0 1).1 c6Leaf 10 none 0 ∧
    (create_document_from_template c6Leaf 10 none 0 1).1.length = szT c6Leaf ∧
    (create_document_from_template c6Leaf 10 none 0 1).1.length = 1 :=
  ⟨(c6_instantiate_from_template c6Leaf 10 1).1,
   (c6_instantiate_from_template c6Leaf 10 1).2.1,
   (c6_instantiate_from_template c6Leaf 10 1).2.2 rfl⟩

/-! ## C4: image codec round-trip — scanner lemmas -/

theorem takeWhile_all_append (p : Char → Bool) (xs : List Char) (y : Char)
    (ys : List Char) (hxs : ∀ x ∈ xs, p x = true) (hy : p y = false) :
    (xs ++ y :: ys).takeWhile p = xs := by
  induction xs with
  | nil => simp [List.takeWhile, hy]
  | cons a l ih =>
    have ha := hxs a (by simp)
    rw [List.cons_append, List.takeWhile_cons, if_pos ha,
      ih (fun x hx => hxs x (by simp [hx]))]

theorem drop_len_append (xs ys : List Char) : (xs ++ ys).drop xs.length = ys := by
  induction xs with
  | nil => simp
  | cons a l ih => simp [ih]

theorem get_append_len {α : Type} (pre : List α) (x : α) (suf : List α)
    (h : pre.length < (pre ++ x :: suf).length) :
    (pre ++ x :: suf).get ⟨pre.length, h⟩ = x := by
  induction pre with
  | nil => rfl
  | cons a l ih =>
    have h' : l.length < (l ++ x :: suf).length := by simp
    show (l ++ x :: suf).get ⟨l.length, h'⟩ = x
    exact ih h'

theorem tryMatch_none_head (c : Char) (cs : List Char) (hc : c ≠ '!') :
    tryMatch (c :: cs) = none := by
  unfold tryMatch
  split
  · rename_i rest heq
    simp at heq
    exact absurd heq.1 hc
  · rfl

theorem tryPlaceholder_none_head (c : Char) (cs : List Char) (hc : c ≠ '[') :
    tryPlaceholder (c :: cs) = none := by
  unfold tryPlaceholder
  split
  · rename_i rest heq
    simp at heq
    exact absurd heq.1 hc
  · rfl

theorem extractGoF_fuel : ∀ (f1 f2 : Nat) (cs : List Char) (k : Nat),
    cs.length ≤ f1 → cs.length ≤ f2 → extractGoF f1 cs k = extractGoF f2 cs k := by
  intro f1
  induction f1 with
  | zero =>
    intro f2 cs k h1 _
    cases cs with
    | nil => cases f2 <;> rfl
    | cons c cs' => simp at h1
  | succ f ih =>
    intro f2 cs k h1 h2
    cases cs with
    | nil => cases f2 <;> rfl
    | cons c cs' =>
      obtain ⟨f2', rfl⟩ : ∃ f2', f2 = f2' + 1 := by
        cases f2
        · simp at h2
        · exact ⟨_, rfl⟩
      cases htm : tryMatch (c :: cs') with
      | none =>
        simp only [extractGoF, htm]
        rw [ih f2' cs' k (by simp at h1; omega) (by simp at h2; omega)]
      | some r =>
        obtain ⟨img, n⟩ := r
        simp only [extractGoF, htm]
        rw [ih f2' (cs'.drop (n - 1)) (k + 1)
          (by simp [List.length_drop] at h1 ⊢; omega)
          (by simp [List.length_drop] at h2 ⊢; omega)]

theorem restoreGoF_fuel : ∀ (f1 f2 : Nat) (cs : List Char) (imgs : List Img),
    cs.length ≤ f1 → cs.length ≤ f2 → restoreGoF f1 cs imgs = restoreGoF f2 cs imgs := by
  intro f1
  induction f1 with
  | zero =>
    intro f2 cs imgs h1 _
    cases cs with
    | nil => cases f2 <;> rfl
    | cons c cs' => simp at h1
  | succ f ih =>
    intro f2 cs imgs h1 h2
    cases cs with
    | nil => cases f2 <;> rfl
    | cons c cs' =>
      obtain ⟨f2', rfl⟩ : ∃ f2', f2 = f2' + 1 := by
        cases f2
        · simp at h2
        · exact ⟨_, rfl⟩
      cases htm : tryPlaceholder (c :: cs') with
      | none =>
        simp only [restoreGoF, htm]
        rw [ih f2' cs' imgs (by simp at h1; omega) (by simp at h2; omega)]
      | some r =>
        obtain ⟨idx, n⟩ := r
        simp only [restoreGoF, htm]
        by_cases hidx : idx < imgs.length
        · simp only [hidx, dif_pos]
          rw [ih f2' (cs'.drop (n - 1)) imgs
            (by simp [List.length_drop] at h1 ⊢; omega)
            (by simp [List.length_drop] at h2 ⊢; omega)]
        · simp only [hidx, dif_neg, not_false_iff]
          rw [ih f2' (cs'.drop (n - 1)) imgs
            (by simp [List.length_drop] at h1 ⊢; omega)
            (by simp [List.length_drop] at h2 ⊢; omega)]

theorem digitChar_isDigit (m : Nat) (h : m < 10) : (digitChar m).isDigit = true := by
  interval_cases m <;> decide

theorem digitVal_digitChar (m : Nat) (h : m < 10) : digitVal (digitChar m) = m := by
  interval_cases m <;> decide

theorem natDigitsF_digits (f n : Nat) : ∀ c ∈ natDigitsF f n, c.isDigit = true := by
  induction f generalizing n with
  | zero =>
    intro c hc
    simp only [natDigitsF, List.mem_singleton] at hc
    subst hc
    exact digitChar_isDigit _ (Nat.mod_lt _ (by omega))
  | succ f ih =>
    intro c hc
    simp only [natDigitsF] at hc
    split at hc
    · simp only [List.mem_singleton] at hc
      subst hc
      exact digitChar_isDigit _ (by omega)
    · rcases List.mem_append.mp hc with h1 | h1
      · exact ih _ c h1
      · simp only [List.mem_singleton] at h1
        subst h1
        exact digitChar_isDigit _ (Nat.mod_lt _ (by omega))

theorem digitsToNat_append (xs : List Char) (d : Char) :
    digitsToNat (xs ++ [d]) = 10 * digitsToNat xs + digitVal d := by
  simp [digitsToNat, List.foldl_append]
  omega

theorem digitsToNat_natDigitsF (f n : Nat) (h : n ≤ f) :
    digitsToNat (natDigitsF f n) = n := by
  induction f generalizing n with
  | zero =>
    have : n = 0 := by omega
    subst this
    decide
  | succ f ih =>
    by_cases hn : n < 10
    · simp only [natDigitsF, hn, if_true]
      show digitsToNat [digitChar n] = n
      simp [digitsToNat, digitVal_digitChar n hn]
    · simp only [natDigitsF, hn, if_false]
      rw [digitsToNat_append, ih (n / 10) (by omega)]
      rw [digitVal_digitChar _ (Nat.mod_lt _ (by omega))]
      omega

theorem natDigits_isEmpty_false (k : Nat) : (natDigits k).isEmpty = false := by
  unfold natDigits
  cases hf : k with
  | zero => rfl
  | succ f =>
    simp only [natDigitsF]
    split
    · rfl
    · simp [List.isEmpty_iff]

theorem natDigits_digits (k : Nat) : ∀ c ∈ natDigits k, c.isDigit = true :=
  natDigitsF_digits k k

theorem tryPlaceholder_placeholder (k : Nat) (r : List Char) :
    tryPlaceholder (placeholder k ++ r) = some (k, (placeholder k).length) := by
  simp only [placeholder, List.cons_append, List.append_assoc, List.singleton_append,
    List.nil_append]
  simp only [tryPlaceholder]
  rw [takeWhile_all_append _ (natDigits k) _ _ (natDigits_digits k) (by decide),
    drop_len_append]
  rw [show (natDigits k).isEmpty = false from natDigits_isEmpty_false k]
  simp only [Bool.false_eq_true, if_false]
  rw [show digitsToNat (natDigits k) = k from digitsToNat_natDigitsF k k le_rfl]
  simp [placeholder]
  omega

theorem stripLit_dataImage (r : List Char) :
    stripLit litDataImage
      (']' :: '(' :: 'd' :: 'a' :: 't' :: 'a' :: ':' :: 'i' :: 'm' :: 'a' :: 'g' :: 'e' :: '/' :: r) =
      some r := rfl

theorem stripLit_base64 (r : List Char) :
    stripLit litBase64 (';' :: 'b' :: 'a' :: 's' :: 'e' :: '6' :: '4' :: ',' :: r) = some r := rfl

theorem tryMatch_canonTag (i : Img) (hg : goodImgB i = true) (r : List Char) :
    tryMatch (canonTag i ++ r) = some (i, (canonTag i).length) := by
  obtain ⟨⟨cap⟩, ⟨mime⟩, ⟨dat⟩, ttl⟩ := i
  cases ttl with
  | none =>
    simp only [goodImgB, Bool.and_eq_true, List.all_eq_true, Bool.not_eq_true',
      Bool.and_true] at hg
    obtain ⟨⟨⟨⟨hcap, hmime0⟩, hmimeAll⟩, hdat0⟩, hdatAll⟩ := hg
    simp only [canonTag, titleTail, List.cons_append, List.append_assoc, List.nil_append]
    simp only [tryMatch]
    rw [takeWhile_all_append _ cap _ _ hcap (by decide), drop_len_append,
      stripLit_dataImage]
    simp only []
    rw [takeWhile_all_append _ mime _ _ hmimeAll (by decide), drop_len_append,
      stripLit_base64, hmime0]
    simp only [Bool.false_eq_true, if_false]
    rw [takeWhile_all_append _ dat _ _ hdatAll (by decide), drop_len_append, hdat0]
    simp only [Bool.false_eq_true, if_false]
    rw [show tryTitle (')' :: r) = none from rfl]
    simp only [canonTag, titleTail, List.length_cons, List.length_append, List.length_nil]
    congr 2
    omega
  | some t =>
    obtain ⟨td⟩ := t
    simp only [goodImgB, Bool.and_eq_true, List.all_eq_true, Bool.not_eq_true'] at hg
    obtain ⟨⟨⟨⟨⟨hcap, hmime0⟩, hmimeAll⟩, hdat0⟩, hdatAll⟩, htd0, htdAll⟩ := hg
    simp only [canonTag, titleTail, List.cons_append, List.append_assoc, List.nil_append]
    simp only [tryMatch]
    rw [takeWhile_all_append _ cap _ _ hcap (by decide), drop_len_append,
      stripLit_dataImage]
    simp only []
    rw [takeWhile_all_append _ mime _ _ hmimeAll (by decide), drop_len_append,
      stripLit_base64, hmime0]
    simp only [Bool.false_eq_true, if_false]
    rw [takeWhile_all_append _ dat _ _ hdatAll (by decide), drop_len_append, hdat0]
    simp only [Bool.false_eq_true, if_false]
    simp only [tryTitle]
    rw [show (' ' :: '"' :: (td ++ '"' :: ')' :: r)).takeWhile isWsChar = [' '] by
      rw [List.takeWhile_cons, if_pos (by decide), List.takeWhile_cons,
        if_neg (by decide)]]
    simp only [List.isEmpty_cons, List.length_cons, List.length_nil,
      List.drop_succ_cons, List.drop_zero, Bool.false_eq_true, if_false]
    rw [takeWhile_all_append _ td _ _ htdAll (by decide), drop_len_append]
    simp only []
    rw [htd0]
    simp only [Bool.false_eq_true, if_false]
    simp only [List.length_append, List.length_cons, List.length_nil]
    congr 2
    omega

theorem extractGoF_match_step (f : Nat) (cs : List Char) (hne : cs ≠ [])
    (img : Img) (n : Nat) (hn : 1 ≤ n) (h : tryMatch cs = some (img, n)) (k : Nat) :
    extractGoF (f + 1) cs k =
      (placeholder k ++ (extractGoF f (cs.drop n) (k + 1)).1,
       img :: (extractGoF f (cs.drop n) (k + 1)).2) := by
  cases cs with
  | nil => exact absurd rfl hne
  | cons c cs2 =>
    simp only [extractGoF, h]
    have hd : cs2.drop (n - 1) = (c :: cs2).drop n := by
      cases n with
      | zero => omega
      | succ m => simp
    rw [hd]

theorem restoreGoF_match_step (f : Nat) (cs : List Char) (hne : cs ≠ [])
    (idx n : Nat) (hn : 1 ≤ n) (h : tryPlaceholder cs = some (idx, n))
    (imgs : List Img) (hidx : idx < imgs.length) :
    restoreGoF (f + 1) cs imgs =
      canonTag (imgs.get ⟨idx, hidx⟩) ++ restoreGoF f (cs.drop n) imgs := by
  cases cs with
  | nil => exact absurd rfl hne
  | cons c cs2 =>
    simp only [restoreGoF, h]
    rw [dif_pos hidx]
    have hd : cs2.drop (n - 1) = (c :: cs2).drop n := by
      cases n with
      | zero => omega
      | succ m => simp
    rw [hd]

theorem extract_text_skip : ∀ (t : List Char), (∀ c ∈ t, c ≠ '!') →
    ∀ (f : Nat) (r : List Char) (k : Nat), t.length + r.length ≤ f →
    extractGoF f (t ++ r) k =
      (t ++ (extractGoF r.length r k).1, (extractGoF r.length r k).2) := by
  intro t
  induction t with
  | nil =>
    intro _ f r k h
    simp only [List.nil_append]
    rw [extractGoF_fuel f r.length r k (by omega) le_rfl]
  | cons c t ih =>
    intro ht f r k h
    cases f with
    | zero => simp at h
    | succ g =>
      simp only [List.cons_append, extractGoF, List.append_eq]
      rw [tryMatch_none_head c (t ++ r) (ht c (by simp))]
      simp only []
      rw [ih (fun x hx => ht x (by simp [hx])) g r k (by simp at h; omega)]

theorem restore_text_skip : ∀ (t : List Char), (∀ c ∈ t, c ≠ '[') →
    ∀ (f : Nat) (r : List Char) (imgs : List Img), t.length + r.length ≤ f →
    restoreGoF f (t ++ r) imgs = t ++ restoreGoF r.length r imgs := by
  intro t
  induction t with
  | nil =>
    intro _ f r imgs h
    simp only [List.nil_append]
    rw [restoreGoF_fuel f r.length r imgs (by omega) le_rfl]
  | cons c t ih =>
    intro ht f r imgs h
    cases f with
    | zero => simp at h
    | succ g =>
      simp only [List.cons_append, restoreGoF, List.append_eq]
      rw [tryPlaceholder_none_head c (t ++ r) (ht c (by simp))]
      simp only []
      rw [ih (fun x hx => ht x (by simp [hx])) g r imgs (by simp at h; omega)]

theorem goodTextB_no_bang (s : List Char) (hs : goodTextB s = true) :
    ∀ c ∈ s, c ≠ '!' := by
  simp only [goodTextB, List.all_eq_true, Bool.and_eq_true, bne_iff_ne] at hs
  intro c hc
  exact (hs c hc).1

theorem goodTextB_no_bracket (s : List Char) (hs : goodTextB s = true) :
    ∀ c ∈ s, c ≠ '[' := by
  simp only [goodTextB, List.all_eq_true, Bool.and_eq_true, bne_iff_ne] at hs
  intro c hc
  exact (hs c hc).2

theorem canonTag_ne_nil (i : Img) : canonTag i ≠ [] := by
  simp [canonTag]

theorem placeholder_ne_nil (k : Nat) : placeholder k ≠ [] := by
  simp [placeholder]

theorem extract_pieces : ∀ (ps : List MdPiece) (f k : Nat), goodPiecesB ps = true →
    (piecesToMarkdown ps).length ≤ f →
    extractGoF f (piecesToMarkdown ps) k = (strippedOf ps k, imgsOf ps) := by
  intro ps
  induction ps with
  | nil =>
    intro f k _ _
    cases f <;> rfl
  | cons p rest ih =>
    intro f k hg hf
    cases p with
    | text s =>
      simp only [goodPiecesB, Bool.and_eq_true] at hg
      simp only [piecesToMarkdown] at hf ⊢
      rw [extract_text_skip s.data (goodTextB_no_bang s.data hg.1) f
        (piecesToMarkdown rest) k (by rw [List.length_append] at hf; exact hf)]
      rw [ih (piecesToMarkdown rest).length k hg.2 le_rfl]
      simp [strippedOf, imgsOf]
    | image i =>
      simp only [goodPiecesB, Bool.and_eq_true] at hg
      simp only [piecesToMarkdown] at hf ⊢
      cases f with
      | zero =>
        exfalso
        have h1 := List.length_pos.mpr (canonTag_ne_nil i)
        rw [List.length_append] at hf
        omega
      | succ g =>
        rw [extractGoF_match_step g (canonTag i ++ piecesToMarkdown rest)
          (by simp [canonTag_ne_nil i]) i (canonTag i).length
          (by have := List.length_pos.mpr (canonTag_ne_nil i); omega)
          (tryMatch_canonTag i hg.1 (piecesToMarkdown rest)) k]
        rw [drop_len_append]
        rw [ih g (k + 1) hg.2 (by rw [List.length_append] at hf
                                  have := List.length_pos.mpr (canonTag_ne_nil i)
                                  omega)]
        simp [strippedOf, imgsOf]

theorem restore_stripped : ∀ (ps : List MdPiece) (f : Nat) (pre suf : List Img),
    goodPiecesB ps = true → (strippedOf ps pre.length).length ≤ f →
    restoreGoF f (strippedOf ps pre.length) (pre ++ (imgsOf ps ++ suf)) =
      piecesToMarkdown ps := by
  intro ps
  induction ps with
  | nil =>
    intro f pre suf _ _
    cases f <;> rfl
  | cons p rest ih =>
    intro f pre suf hg hf
    cases p with
    | text s =>
      simp only [goodPiecesB, Bool.and_eq_true] at hg
      simp only [strippedOf, imgsOf] at hf ⊢
      rw [restore_text_skip s.data (goodTextB_no_bracket s.data hg.1) f
        (strippedOf rest pre.length) (pre ++ (imgsOf rest ++ suf))
        (by rw [List.length_append] at hf; exact hf)]
      rw [ih (strippedOf rest pre.length).length pre suf hg.2 le_rfl]
      simp [piecesToMarkdown]
    | image i =>
      simp only [goodPiecesB, Bool.and_eq_true] at hg
      simp only [strippedOf, imgsOf] at hf ⊢
      cases f with
      | zero =>
        exfalso
        have h1 := List.length_pos.mpr (placeholder_ne_nil pre.length)
        rw [List.length_append] at hf
        omega
      | succ g =>
        have hmem : pre ++ (i :: imgsOf rest ++ suf) = pre ++ i :: (imgsOf rest ++ suf) := by
          simp
        rw [hmem]
        have hidx : pre.length < (pre ++ i :: (imgsOf rest ++ suf)).length := by
          simp [List.length_append]
        rw [restoreGoF_match_step g (placeholder pre.length ++ strippedOf rest (pre.length + 1))
          (by simp [placeholder_ne_nil]) pre.length (placeholder pre.length).length
          (by have := List.length_pos.mpr (placeholder_ne_nil pre.length); omega)
          (tryPlaceholder_placeholder pre.length (strippedOf rest (pre.length + 1)))
          (pre ++ i :: (imgsOf rest ++ suf)) hidx]
        rw [drop_len_append]
        rw [get_append_len pre i (imgsOf rest ++ suf) hidx]
        have hlist : pre ++ i :: (imgsOf rest ++ suf) = (pre ++ [i]) ++ (imgsOf rest ++ suf) := by
          simp
        have hlen : pre.length + 1 = (pre ++ [i]).length := by simp
        rw [hlist, hlen]
        rw [ih g (pre ++ [i]) suf hg.2 (by
          rw [← hlen]
          rw [List.length_append] at hf
          have := List.length_pos.mpr (placeholder_ne_nil pre.length)
          omega)]
        simp [piecesToMarkdown]

/-- C4 (amended): the round-trip law holds on the markdown strings that
interleave text free of `!` and `[` with canonically formatted well-formed
image tags: for every such string, restoring the extracted images into the
stripped markdown reproduces the string exactly.  (The unrestricted law of
the claim fails: literal `[image:N]` text in the input is substituted by
`restore_images_to_markdown`, see the counterexample.) -/
theorem c4_roundtrip_canonical (ps : List MdPiece) (hg : goodPiecesB ps = true) :
    restore_images_to_markdown
      (extract_images_from_markdown ⟨piecesToMarkdown ps⟩).1
      (extract_images_from_markdown ⟨piecesToMarkdown ps⟩).2 =
    ⟨piecesToMarkdown ps⟩ := by
  have he : extract_images_from_markdown ⟨piecesToMarkdown ps⟩ =
      ((⟨strippedOf ps 0⟩ : String), imgsOf ps) := by
    show ((⟨(extractGoF (piecesToMarkdown ps).length (piecesToMarkdown ps) 0).1⟩ : String),
          (extractGoF (piecesToMarkdown ps).length (piecesToMarkdown ps) 0).2) =
      ((⟨strippedOf ps 0⟩ : String), imgsOf ps)
    rw [extract_pieces ps (piecesToMarkdown ps).length 0 hg le_rfl]
  rw [he]
  show (⟨restoreGoF (strippedOf ps 0).length (strippedOf ps 0) (imgsOf ps)⟩ : String) =
    ⟨piecesToMarkdown ps⟩
  have hr := restore_stripped ps (strippedOf ps 0).length [] [] hg le_rfl
  simp only [List.nil_append, List.append_nil, List.length_nil] at hr
  exact congrArg (fun l => (⟨l⟩ : String)) hr

/-- C4 counterexample to the unrestricted round-trip law: the input
`[image:0]![a](data:image/p;base64,B)` holds one well-formed embedded image,
yet the round-trip substitutes the literal `[image:0]` text with that image's
rebuilt tag, so the result differs from the input by a whole duplicated image
(2 embedded images instead of 1), not merely by tag formatting. -/
theorem c4_roundtrip_cex :
    (extract_images_from_markdown c4M).2.length = 1 ∧
    restore_images_to_markdown (extract_images_from_markdown c4M).1
      (extract_images_from_markdown c4M).2 ≠ c4M ∧
    (extract_images_from_markdown
      (restore_images_to_markdown (extract_images_from_markdown c4M).1
        (extract_images_from_markdown c4M).2)).2.length = 2 :=
  ⟨rfl, by decide, rfl⟩

theorem c4_roundtrip_canonical_witness :
    goodPiecesB c4Pieces = true ∧
    restore_images_to_markdown
      (extract_images_from_markdown ⟨piecesToMarkdown c4Pieces⟩).1
      (extract_images_from_markdown ⟨piecesToMarkdown c4Pieces⟩).2 =
      ⟨piecesToMarkdown c4Pieces⟩ :=
  ⟨by decide, c4_roundtrip_canonical c4Pieces (by decide)⟩

end DocMcp
